import Mathlib

/-!
Verification of the Whispr socket backend (`src/server.ts`).

The development is a shallow embedding of the server's in-memory session
state and event handlers.  JavaScript `Map`s are modelled as functions
`String → Option V`, JavaScript `Set`s as duplicate-free lists built with a
guarded insert, and each socket event handler is a pure function from a
server state (plus the handler's arguments) to a new state together with
the ordered list of outbound events it emits.  Database collaborators
(the `User` and `Message` mongoose models) are part of the state: the user
store is a map from id to a user record with a `banned` flag, the message
store a map from message id to a message record.
-/

set_option maxHeartbeats 1600000

namespace Whispr

/-- JavaScript `Map` keyed by strings: a function to `Option`. -/
def SMap (V : Type) : Type := String → Option V

/-- `Map.set k v`. -/
def SMap.set (m : SMap V) (k : String) (v : V) : SMap V :=
  fun k' => if k' = k then some v else m k'

/-- `Map.delete k`. -/
def SMap.del (m : SMap V) (k : String) : SMap V :=
  fun k' => if k' = k then none else m k'

/-- The empty map. -/
def SMap.empty : SMap V := fun _ => none

/-- JavaScript `Set.add`: sets are duplicate-free lists, insert at the end
only when absent (JS `Set.add` is a no-op on a present element). -/
def sadd (x : String) (s : List String) : List String :=
  if x ∈ s then s else s ++ [x]

/-- JavaScript `Set.delete`. -/
def sdel (x : String) (s : List String) : List String :=
  s.filter (fun y => y ≠ x)

/-- JS truthiness of an optional string field (`undefined` and `""` are falsy). -/
def truthy : Option String → Bool
  | none => false
  | some s => s ≠ ""

/-- JS template-literal rendering of a possibly-undefined string
(`${undefined}` prints as `"undefined"`). -/
def jsShow : Option String → String
  | none => "undefined"
  | some s => s

/-- Lexicographic less-or-equal on character lists, by code point: the
order JavaScript's default `Array.prototype.sort` applies to strings.
(Structurally recursive so that concrete instances evaluate.) -/
def charListLe : List Char → List Char → Bool
  | [], _ => true
  | _ :: _, [] => false
  | a :: as, b :: bs =>
    if a < b then true
    else if b < a then false
    else charListLe as bs

/-- Lexicographic string comparison used to model the JS default sort. -/
def jsLe (a b : String) : Bool := charListLe a.data b.data

/-- `getPrivateRoomId` from `src/server.ts`: sort the two user ids
(JS default sort is lexicographic string order) and join them under the
`private_` prefix. -/
def getPrivateRoomId (userId1 userId2 : String) : String :=
  let sorted := if jsLe userId1 userId2 then (userId1, userId2) else (userId2, userId1)
  "private_" ++ sorted.1 ++ "_" ++ sorted.2

/-- A record of the `User` collection as consumed by `server.ts`
(`User.findById`): name fields, ban flag, optional profile picture. -/
structure UserRec where
  firstName : String
  lastName : String
  banned : Bool
  profilePicture : Option String := none
deriving DecidableEq, Repr

/-- A live socket: the fields `server.ts` attaches to the socket object
(`socket.userId`, `socket.firstName`, `socket.lastName`,
`socket.activeRooms`).  `rooms` doubles as socket.io's own room set: every
`socket.join`/`socket.leave` in the source is paired with the matching
`activeRooms` mutation, so the two sets coincide. -/
structure Conn where
  userId : Option String := none
  firstName : Option String := none
  lastName : Option String := none
  rooms : List String := []
deriving DecidableEq, Repr

/-- An entry of the `users` map (`users.set(socket.id, …)`). -/
structure Session where
  userId : String
  firstName : String
  lastName : String
  currentRoom : Option String
deriving DecidableEq, Repr

/-- A stored message (the fields of the `Message` model that `server.ts`
reads and writes).  `replyTo` is kept as the referenced message id. -/
structure Msg where
  sender : String
  firstName : String
  lastName : String
  room : Option String := none
  receiver : Option String := none
  receiverFirstName : Option String := none
  receiverLastName : Option String := none
  text : Option String := none
  chatType : String
  fileUrl : Option String := none
  fileType : Option String := none
  fileName : Option String := none
  replyTo : Option String := none
  isEdited : Bool := false
deriving DecidableEq, Repr

/-- Outbound events, in emission order.  Targeting mirrors the source:
`…To sid` events are `socket.emit` to one connection, room events are
`io.to(room)`/`socket.to(room)` broadcasts, `onlineUsersAll` is `io.emit`,
and `callbackOk`/`callbackErr` are acknowledgment-callback invocations. -/
inductive OutEvent where
  | errorTo (sid msg : String)
  | messageErrorTo (sid msg : String)
  | onlineUsersAll
  | onlineUsersTo (sid : String)
  | userJoined (username room : String)
  | userLeft (username room : String)
  | userTyping (username room : String)
  | userStoppedTyping (username room : String)
  | receiveMessage (room msgId : String)
  | receivePrivateMessageTo (sid msgId : String)
  | receivePrivateMessageRoom (room msgId : String)
  | privateMessageNotificationTo (sid senderId snippet : String)
  | messageEdited (room : String) (receiverUsername : Option String) (text : String)
  | messageDeleted (room msgId : String)
  | callbackOk
  | callbackErr (msg : String)
deriving DecidableEq, Repr

/-- The whole server state: the seven in-memory maps of `server.ts`, the
live socket table, and the two database collaborators. -/
structure ServerState where
  conns : SMap Conn
  users : SMap Session
  usersInPublicRooms : SMap (List String)
  usersInPrivateRooms : SMap (List String)
  userSockets : SMap (List String)
  typingUsers : SMap (List String)
  globalOnlineUsers : SMap String
  userDb : SMap UserRec
  msgDb : SMap Msg
  nextMsgId : Nat

/-- Initial state: no connections, empty maps, a given user store. -/
def initState (udb : SMap UserRec) : ServerState where
  conns := SMap.empty
  users := SMap.empty
  usersInPublicRooms := SMap.empty
  usersInPrivateRooms := SMap.empty
  userSockets := SMap.empty
  typingUsers := SMap.empty
  globalOnlineUsers := SMap.empty
  userDb := udb
  msgDb := SMap.empty
  nextMsgId := 0

/-- A new socket connection: `socket.activeRooms = new Set()`. -/
def connectH (s : ServerState) (sid : String) : ServerState :=
  { s with conns := s.conns.set sid {} }

/-- The identity gate shared by the handlers: `User.findById` followed by
the ban check, with the default-avatar backfill side effect.  Returns the
user record and the (possibly updated) user store, or `none` when the user
is missing or banned. -/
def identityGate (udb : SMap UserRec) (userId : String) :
    Option (UserRec × SMap UserRec) :=
  match udb userId with
  | none => none
  | some u =>
    if u.banned then none
    else
      match u.profilePicture with
      | none =>
        let u' := { u with profilePicture := some "/default-avatar.png" }
        some (u', udb.set userId u')
      | some _ => some (u, udb)

/-- `registerUser` handler (`src/server.ts` lines 140–185). -/
def registerUser (s : ServerState) (sid userId firstName lastName : String)
    (_profilePicture : Option String) : ServerState × List OutEvent :=
  if userId = "" ∨ userId = "undefined" ∨ firstName = "" ∨ lastName = "" then
    (s, [.errorTo sid "Invalid registration data: userId, firstName, and lastName are required"])
  else
    match identityGate s.userDb userId with
    | none =>
      (s, [.errorTo sid (if (s.userDb userId).isSome then "User is banned" else "User not found")])
    | some (_userDoc, udb') =>
      match s.conns sid with
      | none => (s, [])
      | some c =>
        let c' := { c with userId := some userId, firstName := some firstName,
                           lastName := some lastName }
        let sockets := (s.userSockets userId).getD []
        let s1 := { s with userDb := udb',
                           conns := s.conns.set sid c',
                           userSockets := s.userSockets.set userId (sadd sid sockets) }
        let fullName := firstName ++ " " ++ lastName
        if (s1.globalOnlineUsers userId).isSome then
          (s1, [.onlineUsersTo sid])
        else
          ({ s1 with globalOnlineUsers := s1.globalOnlineUsers.set userId fullName },
           [.onlineUsersAll, .onlineUsersTo sid])

/-- The leave-previous-public-room phase of `joinRoom`
(`server.ts` 221–242): when the session's current public room differs from
the target room, drop it from the socket's room set, remove the display
name from its membership and typing sets, and broadcast `userLeft` /
`userStoppedTyping`. -/
def joinRoomLeave (s1 : ServerState) (c1 : Conn) (prev : Option String)
    (room : String) : Conn × ServerState × List OutEvent :=
  match prev with
  | some prevRoom =>
    if prevRoom ≠ room then
      let c2 := { c1 with rooms := sdel prevRoom c1.rooms }
      let fullNameOld := jsShow c1.firstName ++ " " ++ jsShow c1.lastName
      let (s2, ev1) :=
        match s1.usersInPublicRooms prevRoom with
        | some prevUsers =>
          ({ s1 with usersInPublicRooms :=
              s1.usersInPublicRooms.set prevRoom (sdel fullNameOld prevUsers) },
           [OutEvent.userLeft fullNameOld prevRoom])
        | none => (s1, [])
      let (s3, ev2) :=
        match s2.typingUsers prevRoom with
        | some ts =>
          ({ s2 with typingUsers := s2.typingUsers.set prevRoom (sdel fullNameOld ts) },
           [OutEvent.userStoppedTyping fullNameOld prevRoom])
        | none => (s2, [])
      (c2, s3, ev1 ++ ev2)
    else (c1, s1, [])
  | none => (c1, s1, [])

/-- `joinRoom` handler (`src/server.ts` lines 187–267). -/
def joinRoom (s : ServerState) (sid room userId firstName lastName : String) :
    ServerState × List OutEvent :=
  if room = "" ∨ userId = "" ∨ userId = "undefined" ∨ firstName = "" ∨ lastName = "" then
    (s, [.errorTo sid "Invalid join data: room, userId, firstName, and lastName are required"])
  else
    match identityGate s.userDb userId with
    | none =>
      (s, [.errorTo sid (if (s.userDb userId).isSome then "User is banned" else "User not found")])
    | some (_, udb') =>
      match s.conns sid with
      | none => (s, [])
      | some c0 =>
        -- re-bind the socket when it is not already bound to this user id
        let rebind := c0.userId ≠ some userId
        let c1 := if rebind then
            { c0 with userId := some userId, firstName := some firstName,
                      lastName := some lastName }
          else c0
        let s1 := if rebind then
            { s with userDb := udb',
                     userSockets := s.userSockets.set userId
                       (sadd sid ((s.userSockets userId).getD [])) }
          else { s with userDb := udb' }
        -- leave the previous public room
        let prev := (s1.users sid).bind (·.currentRoom)
        let leaveRes := joinRoomLeave s1 c1 prev room
        let c3 := leaveRes.1
        let s3 := leaveRes.2.1
        let evLeave := leaveRes.2.2
        -- join the new room
        let c4 := { c3 with rooms := sadd room c3.rooms }
        let fullName := firstName ++ " " ++ lastName
        let s4 := { s3 with
          conns := s3.conns.set sid c4,
          users := s3.users.set sid ⟨userId, firstName, lastName, some room⟩,
          usersInPublicRooms := s3.usersInPublicRooms.set room
            (sadd fullName ((s3.usersInPublicRooms room).getD [])) }
        let evJoin := [OutEvent.userJoined fullName room]
        if (s4.globalOnlineUsers userId).isSome then
          (s4, evLeave ++ evJoin ++ [.onlineUsersTo sid])
        else
          ({ s4 with globalOnlineUsers := s4.globalOnlineUsers.set userId fullName },
           evLeave ++ evJoin ++ [.onlineUsersAll, .onlineUsersTo sid])

/-- JS `x || undefined` normalization on an optional string field. -/
def jsOr (o : Option String) : Option String :=
  if truthy o then o else none

/-- Arguments of `joinPrivateRoom` (interface `JoinPrivateRoomArgs`). -/
structure JoinPrivateRoomArgs where
  senderId : String
  senderFirstName : String
  senderLastName : String
  receiverId : String
  receiverFirstName : Option String := none
  receiverLastName : Option String := none
deriving DecidableEq, Repr

/-- The dual user validation of `joinPrivateRoom` (`server.ts` 287–309):
both users must exist and be unbanned; both get the default-avatar
backfill. -/
def dualGate (udb : SMap UserRec) (senderId receiverId : String) :
    Option (SMap UserRec) ⊕ String :=
  match udb senderId, udb receiverId with
  | none, _ => .inr "User not found"
  | _, none => .inr "User not found"
  | some su, some ru =>
    if su.banned ∨ ru.banned then .inr "One or both users are banned"
    else
      let udb1 := match su.profilePicture with
        | none => udb.set senderId { su with profilePicture := some "/default-avatar.png" }
        | some _ => udb
      let udb2 := match ru.profilePicture with
        | none =>
          match udb1 receiverId with
          | some ru' => udb1.set receiverId { ru' with profilePicture := some "/default-avatar.png" }
          | none => udb1
        | some _ => udb1
      .inl (some udb2)

/-- One step of the receiver fan-out of `joinPrivateRoom`
(`server.ts` 355–365): join one of the receiver's sockets into the
private room, unless it is dead or already a member. -/
def fanoutStep (room receiverId : String) (acc : ServerState) (rid : String) :
    ServerState :=
  match acc.conns rid with
  | none => acc
  | some c =>
    if room ∈ c.rooms then acc
    else
      { acc with
        conns := acc.conns.set rid { c with rooms := sadd room c.rooms },
        usersInPrivateRooms := acc.usersInPrivateRooms.set room
          (sadd receiverId ((acc.usersInPrivateRooms room).getD [])) }

/-- The initiator's own join step of `joinPrivateRoom`
(`server.ts` 314–325): a no-op when the socket's active-room set already
contains the canonical id. -/
def selfJoinPrivate (s : ServerState) (sid : String) (a : JoinPrivateRoomArgs)
    (room : String) : ServerState :=
  match s.conns sid with
  | none => s
  | some c =>
    if room ∈ c.rooms then s
    else
      { s with
        conns := s.conns.set sid
          { c with rooms := sadd room c.rooms, userId := some a.senderId,
                   firstName := some a.senderFirstName, lastName := some a.senderLastName },
        usersInPrivateRooms := s.usersInPrivateRooms.set room
          (sadd a.senderId ((s.usersInPrivateRooms room).getD [])) }

/-- `joinPrivateRoom` handler (`src/server.ts` lines 269–371). -/
def joinPrivateRoom (s : ServerState) (sid : String) (a : JoinPrivateRoomArgs) :
    ServerState × List OutEvent :=
  if a.senderId = "" ∨ a.receiverId = "" ∨ a.senderFirstName = "" ∨ a.senderLastName = "" then
    (s, [.callbackErr "Invalid private room data"])
  else
    match dualGate s.userDb a.senderId a.receiverId with
    | .inr e => (s, [.callbackErr e])
    | .inl odb =>
      let s0 := { s with userDb := odb.getD s.userDb }
      let room := getPrivateRoomId a.senderId a.receiverId
      let s1 := selfJoinPrivate s0 sid a room
      let s2 :=
        match s1.userSockets a.receiverId with
        | some receiverSockets => receiverSockets.foldl (fanoutStep room a.receiverId) s1
        | none => s1
      (s2, [.callbackOk])

/-- `leavePrivateRoom` handler (`src/server.ts` lines 373–390). -/
def leavePrivateRoom (s : ServerState) (sid senderId receiverId : String) :
    ServerState × List OutEvent :=
  if senderId = "" ∨ receiverId = "" then
    (s, [.errorTo sid "Invalid leave data"])
  else
    let room := getPrivateRoomId senderId receiverId
    match s.conns sid with
    | none => (s, [])
    | some c =>
      if room ∈ c.rooms then
        let s1 := { s with conns := s.conns.set sid { c with rooms := sdel room c.rooms } }
        match s1.usersInPrivateRooms room with
        | some p =>
          ({ s1 with usersInPrivateRooms := s1.usersInPrivateRooms.set room (sdel senderId p) }, [])
        | none => (s1, [])
      else (s, [])

/-- Arguments of `sendMessage` (interface `SendMessageArgs`); `replyTo`
is kept as the referenced message id. -/
structure SendMessageArgs where
  id : String
  userId : String
  firstName : String
  lastName : String
  text : Option String := none
  room : String
  fileUrl : Option String := none
  fileType : Option String := none
  fileName : Option String := none
  replyTo : Option String := none
deriving DecidableEq, Repr

/-- The persist-and-broadcast tail of `sendMessage` (`server.ts`
441–483): save the message, clear the sender's typing entry for the room
(broadcasting `userStoppedTyping` when the room has one), then broadcast
`receiveMessage` to the room. -/
def sendMessageCore (s : ServerState) (a : SendMessageArgs)
    (udb' : SMap UserRec) : ServerState × List OutEvent :=
  let fullName := a.firstName ++ " " ++ a.lastName
  let msgId := "m" ++ toString s.nextMsgId
  let newMessage : Msg :=
    { sender := a.userId, firstName := a.firstName, lastName := a.lastName,
      room := some a.room, text := jsOr a.text, chatType := "room",
      fileUrl := jsOr a.fileUrl, fileType := jsOr a.fileType,
      fileName := jsOr a.fileName, replyTo := a.replyTo }
  let s1 := { s with userDb := udb', msgDb := s.msgDb.set msgId newMessage,
                     nextMsgId := s.nextMsgId + 1 }
  let (s2, evStop) :=
    match s1.typingUsers a.room with
    | some ts =>
      ({ s1 with typingUsers := s1.typingUsers.set a.room (sdel fullName ts) },
       [OutEvent.userStoppedTyping fullName a.room])
    | none => (s1, [])
  (s2, evStop ++ [.receiveMessage a.room msgId])

/-- `sendMessage` handler (`src/server.ts` lines 392–488). -/
def sendMessage (s : ServerState) (sid : String) (a : SendMessageArgs) :
    ServerState × List OutEvent :=
  if ¬ truthy a.text ∧ ¬ truthy a.fileUrl then
    (s, [.messageErrorTo sid "Message cannot be empty."])
  else
    match identityGate s.userDb a.userId with
    | none =>
      (s, [.errorTo sid (if (s.userDb a.userId).isSome then "User is banned" else "User not found")])
    | some (_, udb') =>
      match a.replyTo with
      | some rtid =>
        match s.msgDb rtid with
        | none => ({ s with userDb := udb' }, [.messageErrorTo sid "Replied message not found."])
        | some _ => sendMessageCore s a udb'
      | none => sendMessageCore s a udb'

/-- Arguments of `privateMessage` (interface `PrivateMessageArgs`). -/
structure PrivateMessageArgs where
  id : String
  senderId : String
  senderFirstName : String
  senderLastName : String
  receiverId : String
  receiverFirstName : String
  receiverLastName : String
  text : Option String := none
  fileUrl : Option String := none
  fileType : Option String := none
  fileName : Option String := none
  replyTo : Option String := none
deriving DecidableEq, Repr

/-- The ≤100-character snippet rule of `privateMessageNotification`
(`server.ts` 633–643). -/
def snippetOf (content : String) : String :=
  if content.length > 100 then content.take 97 ++ "..." else content

/-- The persist-and-deliver tail of `privateMessage` (`server.ts`
582–655): save the message, emit `receivePrivateMessage` to the sender and
(when the canonical room has established membership) to the room, then a
`privateMessageNotification` to each of the receiver's live sockets not in
the room, and finally acknowledge success. -/
def privateMessageCore (s : ServerState) (sid : String) (a : PrivateMessageArgs)
    (updatedFirstName updatedLastName : String) : ServerState × List OutEvent :=
  let room := getPrivateRoomId a.senderId a.receiverId
  let msgId := "m" ++ toString s.nextMsgId
  let newMessage : Msg :=
    { sender := a.senderId, firstName := a.senderFirstName,
      lastName := a.senderLastName, receiver := some a.receiverId,
      receiverFirstName := some updatedFirstName,
      receiverLastName := some updatedLastName,
      text := jsOr a.text, chatType := "private",
      fileUrl := jsOr a.fileUrl, fileType := jsOr a.fileType,
      fileName := jsOr a.fileName, replyTo := a.replyTo }
  let s1 := { s with msgDb := s.msgDb.set msgId newMessage,
                     nextMsgId := s.nextMsgId + 1 }
  let evRoom :=
    if (s1.usersInPrivateRooms room).isSome then
      [OutEvent.receivePrivateMessageRoom room msgId]
    else []
  let notificationContent :=
    if truthy a.text then a.text.getD ""
    else "[File: " ++ (if truthy a.fileName then a.fileName.getD "" else "Shared File") ++ "]"
  let evNotif :=
    match s1.userSockets a.receiverId with
    | some receiverSocketIds =>
      receiverSocketIds.filterMap (fun rid =>
        match s1.conns rid with
        | some c =>
          if room ∈ c.rooms then none
          else some (OutEvent.privateMessageNotificationTo rid a.senderId
            (snippetOf notificationContent))
        | none => none)
    | none => []
  (s1, [OutEvent.receivePrivateMessageTo sid msgId] ++ evRoom ++ evNotif ++ [.callbackOk])

/-- `privateMessage` handler (`src/server.ts` lines 490–660). -/
def privateMessage (s : ServerState) (sid : String) (a : PrivateMessageArgs) :
    ServerState × List OutEvent :=
  if ¬ truthy a.text ∧ ¬ truthy a.fileUrl then
    (s, [.callbackErr "Private message cannot be empty."])
  else if a.senderId = "" ∨ a.receiverId = "" ∨ a.senderFirstName = "" ∨ a.senderLastName = "" then
    (s, [.callbackErr "Invalid message data."])
  else
    match s.userDb a.senderId, s.userDb a.receiverId with
    | none, _ => (s, [.callbackErr "User not found"])
    | _, none => (s, [.callbackErr "User not found"])
    | some su, some ru =>
      if su.banned ∨ ru.banned then (s, [.callbackErr "One or both users are banned"])
      else
        let (updatedFirstName, updatedLastName) :=
          if a.receiverFirstName = "" ∨ a.receiverLastName = "" then
            match s.userDb a.receiverId with
            | some u => (u.firstName, u.lastName)
            | none => ("Unknown", "")
          else (a.receiverFirstName, a.receiverLastName)
        match a.replyTo with
        | some rtid =>
          match s.msgDb rtid with
          | none => (s, [.callbackErr "Replied message not found."])
          | some _ => privateMessageCore s sid a updatedFirstName updatedLastName
        | none => privateMessageCore s sid a updatedFirstName updatedLastName

/-- Arguments of `editMessage` (interface `EditMessageArgs`). -/
structure EditMessageArgs where
  messageId : String
  newText : String
  userId : String
deriving DecidableEq, Repr

/-- `editMessage` handler (`src/server.ts` lines 715–788).  Note the
payload's `receiverUsername`: the source concatenates the stored
`receiverFirstName` with the *sender-side* `message.lastName`. -/
def editMessage (s : ServerState) (sid : String) (a : EditMessageArgs) :
    ServerState × List OutEvent :=
  match s.msgDb a.messageId with
  | none => (s, [.messageErrorTo sid "Message not found."])
  | some message =>
    if message.sender ≠ a.userId then
      (s, [.messageErrorTo sid "Not authorized to edit this message."])
    else if truthy message.fileUrl ∧ (a.newText = "" ∨ a.newText.trim = "") then
      (s, [.messageErrorTo sid "Cannot edit a message that is solely a file."])
    else
      let message' := { message with text := some a.newText, isEdited := true }
      let s1 := { s with msgDb := s.msgDb.set a.messageId message' }
      let fullReceiverName :=
        if truthy message.receiverFirstName ∧ truthy message.receiverLastName then
          some (jsShow message.receiverFirstName ++ " " ++ message.lastName)
        else none
      let ev :=
        if message.chatType = "room" ∧ truthy message.room then
          [OutEvent.messageEdited (jsShow message.room) fullReceiverName a.newText]
        else if message.chatType = "private" then
          [OutEvent.messageEdited
            (getPrivateRoomId message.sender (message.receiver.getD ""))
            fullReceiverName a.newText]
        else []
      (s1, ev)

/-- `typing` handler (`src/server.ts` lines 825–848). -/
def typingH (s : ServerState) (_sid : String) (room : Option String)
    (firstName lastName : String) (senderId receiverId : Option String) :
    ServerState × List OutEvent :=
  let fullName := firstName ++ " " ++ lastName
  if truthy room then
    let r := jsShow room
    ({ s with typingUsers := s.typingUsers.set r (sadd fullName ((s.typingUsers r).getD [])) },
     [.userTyping fullName r])
  else if truthy senderId ∧ truthy receiverId then
    let r := getPrivateRoomId (jsShow senderId) (jsShow receiverId)
    ({ s with typingUsers := s.typingUsers.set r (sadd fullName ((s.typingUsers r).getD [])) },
     [.userTyping fullName r])
  else (s, [])

/-- `stopTyping` handler (`src/server.ts` lines 850–871). -/
def stopTypingH (s : ServerState) (_sid : String) (room : Option String)
    (firstName lastName : String) (senderId receiverId : Option String) :
    ServerState × List OutEvent :=
  let fullName := firstName ++ " " ++ lastName
  if truthy room then
    let r := jsShow room
    match s.typingUsers r with
    | some ts =>
      ({ s with typingUsers := s.typingUsers.set r (sdel fullName ts) },
       [.userStoppedTyping fullName r])
    | none => (s, [])
  else if truthy senderId ∧ truthy receiverId then
    let r := getPrivateRoomId (jsShow senderId) (jsShow receiverId)
    match s.typingUsers r with
    | some ts =>
      ({ s with typingUsers := s.typingUsers.set r (sdel fullName ts) },
       [.userStoppedTyping fullName r])
    | none => (s, [])
  else (s, [])

/-- Pass 1 of the `disconnect` handler (`server.ts` 874–896): if a session
record exists, delete it and remove the display name from the current
public room's membership and typing sets, with broadcasts. -/
def disconnectPass1 (s : ServerState) (sid : String) : ServerState × List OutEvent :=
  match s.users sid with
  | none => (s, [])
  | some rec =>
    let fullName := rec.firstName ++ " " ++ rec.lastName
    let s0 := { s with users := s.users.del sid }
    match rec.currentRoom with
    | none => (s0, [])
    | some currentRoom =>
      let (s1, ev1) :=
        match s0.usersInPublicRooms currentRoom with
        | some roomUsers =>
          ({ s0 with usersInPublicRooms :=
              s0.usersInPublicRooms.set currentRoom (sdel fullName roomUsers) },
           [OutEvent.userLeft fullName currentRoom])
        | none => (s0, [])
      let (s2, ev2) :=
        match s1.typingUsers currentRoom with
        | some ts =>
          ({ s1 with typingUsers := s1.typingUsers.set currentRoom (sdel fullName ts) },
           [OutEvent.userStoppedTyping fullName currentRoom])
        | none => (s1, [])
      (s2, ev1 ++ ev2)

/-- Public-room membership cleanup for one room of the disconnect loop
(`server.ts` 909–911). -/
def roomStepPub (fullName : String) (s : ServerState) (room : String) : ServerState :=
  match s.usersInPublicRooms room with
  | some pu => { s with usersInPublicRooms := s.usersInPublicRooms.set room (sdel fullName pu) }
  | none => s

/-- Private-room membership cleanup for one room of the disconnect loop
(`server.ts` 912–914). -/
def roomStepPriv (uid : String) (s : ServerState) (room : String) : ServerState :=
  match s.usersInPrivateRooms room with
  | some pv => { s with usersInPrivateRooms := s.usersInPrivateRooms.set room (sdel uid pv) }
  | none => s

/-- One iteration of the `socket.activeRooms.forEach` loop in the
`disconnect` handler (`server.ts` 907–922). -/
def disconnectRoomStep (fullName uid : String) (acc : ServerState × List OutEvent)
    (room : String) : ServerState × List OutEvent :=
  let s2 := roomStepPriv uid (roomStepPub fullName acc.1 room) room
  match s2.typingUsers room with
  | some ts =>
    ({ s2 with typingUsers := s2.typingUsers.set room (sdel fullName ts) },
     acc.2 ++ [OutEvent.userStoppedTyping fullName room])
  | none => (s2, acc.2)

/-- Passes 2 and 3 of the `disconnect` handler (`server.ts` 898–923):
guarded by `socket.userId && userSockets.has(socket.userId)`, remove the
connection from the user's connection set (dropping the roster entry when
it empties) and then iterate the connection's active-room set. -/
def disconnectPass23 (s : ServerState) (sid : String) (c : Conn) :
    ServerState × List OutEvent :=
  match c.userId with
  | none => (s, [])
  | some uid =>
    match s.userSockets uid with
    | none => (s, [])
    | some sockets =>
      let sockets' := sdel sid sockets
      let (s1, ev1) : ServerState × List OutEvent :=
        match sockets' with
        | [] =>
          ({ s with userSockets := s.userSockets.del uid,
                    globalOnlineUsers := s.globalOnlineUsers.del uid },
           [.onlineUsersAll])
        | _ :: _ =>
          ({ s with userSockets := s.userSockets.set uid sockets' }, [])
      let fullName := jsShow c.firstName ++ " " ++ jsShow c.lastName
      c.rooms.foldl (disconnectRoomStep fullName uid) (s1, ev1)

/-- `disconnect` handler (`src/server.ts` lines 873–924): pass 1, then the
guarded passes 2–3, then the socket itself disappears from the live
table. -/
def disconnectH (s : ServerState) (sid : String) : ServerState × List OutEvent :=
  match s.conns sid with
  | none => (s, [])
  | some c =>
    let (s1, ev1) := disconnectPass1 s sid
    let (s2, ev2) := disconnectPass23 s1 sid c
    ({ s2 with conns := s2.conns.del sid }, ev1 ++ ev2)

/-- The roster invariant of the spec: a user id is in the Global Online
Roster iff its User Connection Set exists and is non-empty. -/
def OnlineInv (s : ServerState) : Prop :=
  ∀ u, (s.globalOnlineUsers u).isSome ↔ ∃ l, s.userSockets u = some l ∧ l ≠ []

/-- Auxiliary invariant: a live socket bound to a user id is recorded in
that user's connection set. -/
def ConnInv (s : ServerState) : Prop :=
  ∀ sid c uid, s.conns sid = some c → c.userId = some uid →
    ∃ l, s.userSockets uid = some l ∧ sid ∈ l

/-- The conjunction used for the induction. -/
def GoodState (s : ServerState) : Prop := OnlineInv s ∧ ConnInv s

/-- The `registerUser` / `joinRoom` / `disconnect` fragment of the event
surface — the events claim C1 quantifies over — plus the connection
openings that create sockets. -/
inductive PresenceEv where
  | connect (sid : String)
  | register (sid userId firstName lastName : String) (profilePicture : Option String)
  | joinRoomEv (sid room userId firstName lastName : String)
  | disconnect (sid : String)

/-- Dispatch one presence event to its handler. -/
def presenceStep (s : ServerState) : PresenceEv → ServerState
  | .connect sid => connectH s sid
  | .register sid u f l p => (registerUser s sid u f l p).1
  | .joinRoomEv sid r u f l => (joinRoom s sid r u f l).1
  | .disconnect sid => (disconnectH s sid).1

/-- Run a sequence of presence events from the empty initial state over a
given user store. -/
def presenceRun (udb : SMap UserRec) (evs : List PresenceEv) : ServerState :=
  evs.foldl presenceStep (initState udb)

/-- The socket `rid` is either dead or has `room` in its active-room set. -/
def hasRoom (st : ServerState) (rid room : String) : Prop :=
  ∀ c, st.conns rid = some c → room ∈ c.rooms

/-- The socket `rid` is live and does not yet hold `room`. -/
def liveNotHas (st : ServerState) (rid room : String) : Prop :=
  ∃ c, st.conns rid = some c ∧ room ∉ c.rooms

/-- User store for the C8 counterexample trace: two existing, unbanned
users `A` and `B` with avatars already set. -/
def c8udb : SMap UserRec :=
  fun k => if k = "A" ∨ k = "B" then some ⟨"N", "M", false, some "p"⟩ else none

/-- `joinPrivateRoom` arguments: `A` opens the private room with `B`. -/
def c8args : JoinPrivateRoomArgs := ⟨"A", "N", "M", "B", none, none⟩

/-- Reachable state: socket `s` registered as `A`, sockets `r1`, `r2`
registered as `B`. -/
def c8s6 : ServerState :=
  (registerUser (connectH (registerUser (connectH (registerUser (connectH
    (initState c8udb) "s") "s" "A" "N" "M" none).1 "r1") "r1" "B" "N" "M" none).1
    "r2") "r2" "B" "N" "M" none).1

/-- Reachable state: after `A` joins the private room (fanning out to `r1`
and `r2`), `B` leaves it on `r1` (which removes `B` from the participant
set even though `r2` is still a member), and `r1` disconnects. -/
def c8s9 : ServerState :=
  (disconnectH (leavePrivateRoom (joinPrivateRoom c8s6 "s" c8args).1
    "r1" "B" "A").1 "r1").1

/-- The second `joinPrivateRoom` by `A` from state `c8s9`. -/
def c8final : ServerState × List OutEvent := joinPrivateRoom c8s9 "s" c8args

/-- User store for the C6 witness: one existing, unbanned user. -/
def c6udb : SMap UserRec :=
  fun k => if k = "u1" then some ⟨"Ada", "L", false, some "p"⟩ else none

/-- The connection of the C6 witness: bound to `u1`, currently in room
`lobby`. -/
def c6conn : Conn :=
  { userId := some "u1", firstName := some "Ada", lastName := some "L",
    rooms := ["lobby"] }

/-- C6 witness state: socket `s1` is registered as `u1` and is a member of
public room `lobby`. -/
def c6state : ServerState where
  conns := fun k => if k = "s1" then some c6conn else none
  users := fun k => if k = "s1" then some ⟨"u1", "Ada", "L", some "lobby"⟩ else none
  usersInPublicRooms := fun k => if k = "lobby" then some ["Ada L"] else none
  usersInPrivateRooms := SMap.empty
  userSockets := fun k => if k = "u1" then some ["s1"] else none
  typingUsers := SMap.empty
  globalOnlineUsers := fun k => if k = "u1" then some "Ada L" else none
  userDb := c6udb
  msgDb := SMap.empty
  nextMsgId := 0

/-- Connection for the C7 witness: already a member of the canonical
private room of `A` and `B`. -/
def c7conn : Conn :=
  { userId := some "A", firstName := some "N", lastName := some "M",
    rooms := [getPrivateRoomId "A" "B"] }

/-- State for the C7 witness. -/
def c7state : ServerState where
  conns := fun k => if k = "s1" then some c7conn else none
  users := SMap.empty
  usersInPublicRooms := SMap.empty
  usersInPrivateRooms := fun k =>
    if k = getPrivateRoomId "A" "B" then some ["A"] else none
  userSockets := SMap.empty
  typingUsers := SMap.empty
  globalOnlineUsers := SMap.empty
  userDb := SMap.empty
  msgDb := SMap.empty
  nextMsgId := 0

/-- Arguments for the C7 witness. -/
def c7args : JoinPrivateRoomArgs := ⟨"A", "N", "M", "B", none, none⟩

/-- Message store for the C3 counterexample: `m1` is a file-only message
owned by `u1`. -/
def c3state : ServerState where
  conns := SMap.empty
  users := SMap.empty
  usersInPublicRooms := SMap.empty
  usersInPrivateRooms := SMap.empty
  userSockets := SMap.empty
  typingUsers := SMap.empty
  globalOnlineUsers := SMap.empty
  userDb := SMap.empty
  msgDb := fun k =>
    if k = "m1" then
      some { sender := "u1", firstName := "N", lastName := "M",
             receiver := some "u2", chatType := "private",
             fileUrl := some "f" }
    else if k = "m2" then
      some { sender := "u1", firstName := "N", lastName := "M",
             receiver := some "u2", receiverFirstName := some "RF",
             receiverLastName := some "RL", chatType := "private" }
    else none
  nextMsgId := 0

/-- User store for the C4 counterexample and witness. -/
def c4udb : SMap UserRec :=
  fun k => if k = "A" ∨ k = "B" then some ⟨"N", "M", false, some "p"⟩ else none

/-- C4 counterexample state: sender `A` (socket `s1`) is in the canonical
private room with `B`, the room has established membership, and the
private room's typing set currently lists the sender's display name. -/
def c4state : ServerState where
  conns := fun k =>
    if k = "s1" then
      some { userId := some "A", firstName := some "N", lastName := some "M",
             rooms := [getPrivateRoomId "A" "B"] }
    else none
  users := SMap.empty
  usersInPublicRooms := SMap.empty
  usersInPrivateRooms := fun k =>
    if k = getPrivateRoomId "A" "B" then some ["A", "B"] else none
  userSockets := fun k => if k = "A" then some ["s1"] else none
  typingUsers := fun k =>
    if k = getPrivateRoomId "A" "B" then some ["N M"] else none
  globalOnlineUsers := SMap.empty
  userDb := c4udb
  msgDb := SMap.empty
  nextMsgId := 0

/-- The private message of the C4 counterexample. -/
def c4args : PrivateMessageArgs :=
  ⟨"id1", "A", "N", "M", "B", "RF", "RL", some "hi", none, none, none, none⟩

/-- C4 witness state: a room send into `lobby` while the sender is listed
as typing there. -/
def c4wstate : ServerState where
  conns := SMap.empty
  users := SMap.empty
  usersInPublicRooms := SMap.empty
  usersInPrivateRooms := SMap.empty
  userSockets := SMap.empty
  typingUsers := fun k => if k = "lobby" then some ["N M"] else none
  globalOnlineUsers := SMap.empty
  userDb := c4udb
  msgDb := SMap.empty
  nextMsgId := 0

/-- Socket.io delivery of `receivePrivateMessage` to socket `rid`: either a
direct `socket.emit` to it, or an `io.to(room)` broadcast for a room the
socket has joined. -/
def deliveredPM (s : ServerState) (evs : List OutEvent) (rid : String) : Prop :=
  (∃ m, OutEvent.receivePrivateMessageTo rid m ∈ evs) ∨
  (∃ r m c, OutEvent.receivePrivateMessageRoom r m ∈ evs ∧
    s.conns rid = some c ∧ r ∈ c.rooms)

/-- C9 witness state: receiver `B` has two live connections, `c1` joined
to the canonical private room and `c2` not; the room's membership entry is
established. -/
def c9state : ServerState where
  conns := fun k =>
    if k = "s1" then
      some { userId := some "A", firstName := some "N", lastName := some "M",
             rooms := [getPrivateRoomId "A" "B"] }
    else if k = "c1" then
      some { userId := some "B", firstName := some "R", lastName := some "S",
             rooms := [getPrivateRoomId "A" "B"] }
    else if k = "c2" then
      some { userId := some "B", firstName := some "R", lastName := some "S",
             rooms := [] }
    else none
  users := SMap.empty
  usersInPublicRooms := SMap.empty
  usersInPrivateRooms := fun k =>
    if k = getPrivateRoomId "A" "B" then some ["A", "B"] else none
  userSockets := fun k =>
    if k = "A" then some ["s1"] else if k = "B" then some ["c1", "c2"] else none
  typingUsers := SMap.empty
  globalOnlineUsers := SMap.empty
  userDb := c4udb
  msgDb := SMap.empty
  nextMsgId := 0

/-- User store for the C2 counterexample and witness. -/
def c2udb : SMap UserRec :=
  fun k => if k = "X" ∨ k = "Y" then some ⟨"P", "Q", false, some "p"⟩ else none

/-- `joinPrivateRoom` arguments for the C2 counterexample. -/
def c2args : JoinPrivateRoomArgs := ⟨"X", "P", "Q", "Y", none, none⟩

/-- Reachable state: a fresh socket joins a private room *without ever
registering*, so it has a bound user id and a non-empty joined-room set
but no `userSockets` entry and no session record. -/
def c2s : ServerState :=
  (joinPrivateRoom (connectH (initState c2udb) "s1") "s1" c2args).1

/-- Connection record for the C2 witness. -/
def c2wconn : Conn :=
  { userId := some "X", firstName := some "P", lastName := some "Q",
    rooms := [getPrivateRoomId "X" "Y"] }

/-- State for the C2 witness: a properly registered socket that joined a
private room. -/
def c2wstate : ServerState where
  conns := fun k => if k = "s1" then some c2wconn else none
  users := fun k => if k = "s1" then some ⟨"X", "P", "Q", none⟩ else none
  usersInPublicRooms := SMap.empty
  usersInPrivateRooms := fun k =>
    if k = getPrivateRoomId "X" "Y" then some ["X", "Y"] else none
  userSockets := fun k => if k = "X" then some ["s1"] else none
  typingUsers := SMap.empty
  globalOnlineUsers := fun k => if k = "X" then some "P Q" else none
  userDb := c2udb
  msgDb := SMap.empty
  nextMsgId := 0

@[simp] theorem SMap.set_self (m : SMap V) (k : String) (v : V) :
    m.set k v k = some v := by simp [SMap.set]

theorem SMap.set_ne (m : SMap V) {k k' : String} (v : V) (h : k' ≠ k) :
    m.set k v k' = m k' := by simp [SMap.set, h]

@[simp] theorem SMap.del_self (m : SMap V) (k : String) :
    m.del k k = none := by simp [SMap.del]

theorem SMap.del_ne (m : SMap V) {k k' : String} (h : k' ≠ k) :
    m.del k k' = m k' := by simp [SMap.del, h]

@[simp] theorem mem_sadd_self (x : String) (s : List String) : x ∈ sadd x s := by
  by_cases h : x ∈ s <;> simp [sadd, h]

theorem mem_sadd_of_mem {y : String} (x : String) {s : List String} (h : y ∈ s) :
    y ∈ sadd x s := by
  by_cases hx : x ∈ s <;> simp [sadd, hx, h]

theorem sadd_ne_nil (x : String) (s : List String) : sadd x s ≠ [] := by
  intro h
  exact (List.ne_nil_of_mem (mem_sadd_self x s)) h

theorem mem_of_mem_sadd {x y : String} {s : List String} (h : y ∈ sadd x s) :
    y = x ∨ y ∈ s := by
  by_cases hx : x ∈ s
  · simp [sadd, hx] at h; exact Or.inr h
  · simp [sadd, hx] at h; tauto

@[simp] theorem not_mem_sdel (x : String) (s : List String) : x ∉ sdel x s := by
  simp [sdel]

theorem mem_sdel_of_mem {x y : String} {s : List String} (h : y ∈ s) (hne : y ≠ x) :
    y ∈ sdel x s := by
  simp [sdel, h, hne]

theorem mem_of_mem_sdel {x y : String} {s : List String} (h : y ∈ sdel x s) : y ∈ s := by
  simp [sdel] at h; exact h.1

theorem charListLe_iff : ∀ (l1 l2 : List Char), charListLe l1 l2 = true ↔ ¬ l2 < l1 := by
  intro l1
  induction l1 with
  | nil =>
    intro l2
    apply iff_of_true
    · rfl
    · intro h
      cases h
  | cons a as ih =>
    intro l2
    cases l2 with
    | nil =>
      apply iff_of_false
      · simp [charListLe]
      · intro h
        exact h (List.nil_lt_cons a as)
    | cons b bs =>
      by_cases hab : a < b
      · apply iff_of_true
        · simp [charListLe, hab]
        · intro h
          cases h with
          | cons h' => exact lt_irrefl a hab
          | rel h' => exact absurd hab (lt_asymm h')
      · by_cases hba : b < a
        · apply iff_of_false
          · simp [charListLe, hab, hba]
          · intro h
            exact h (List.Lex.rel hba)
        · have habeq : a = b := le_antisymm (not_lt.mp hba) (not_lt.mp hab)
          subst habeq
          have heq : charListLe (a :: as) (a :: bs) = charListLe as bs := by
            simp [charListLe, hab]
          rw [heq, ih bs]
          constructor
          · intro h hlt
            cases hlt with
            | cons h' => exact h h'
            | rel h' => exact lt_irrefl a h'
          · intro h hlt
            exact h (List.Lex.cons hlt)

/-- `jsLe` agrees with the (Mathlib) linear order on strings. -/
theorem jsLe_le {a b : String} : jsLe a b = true ↔ a ≤ b := by
  unfold jsLe
  rw [charListLe_iff]
  constructor
  · intro h
    rw [String.le_iff_toList_le]
    exact not_lt.mp h
  · intro h
    exact not_lt.mpr (String.le_iff_toList_le.mp h)

/-- **C5.** `getPrivateRoomId` is symmetric in its two arguments, and its
result is the fixed prefix `private_` followed by the two ids in sorted
order joined by `_`.  (Purity and determinism are inherent: the embedding
is a plain function of its two arguments.) -/
theorem getPrivateRoomId_symm_and_sorted (a b : String) :
    getPrivateRoomId a b = getPrivateRoomId b a ∧
    getPrivateRoomId a b = "private_" ++ min a b ++ "_" ++ max a b := by
  constructor
  · by_cases h1 : jsLe a b = true
    · by_cases h2 : jsLe b a = true
      · have hab : a = b := le_antisymm (jsLe_le.mp h1) (jsLe_le.mp h2)
        subst hab
        rfl
      · simp [getPrivateRoomId, h1, h2]
    · have h2 : jsLe b a = true := by
        rcases le_total a b with h | h
        · exact absurd (jsLe_le.mpr h) h1
        · exact jsLe_le.mpr h
      simp [getPrivateRoomId, h1, h2]
  · by_cases h1 : jsLe a b = true
    · have hab : a ≤ b := jsLe_le.mp h1
      simp [getPrivateRoomId, h1, min_eq_left hab, max_eq_right hab]
    · have hba : b ≤ a := by
        rcases le_total a b with h | h
        · exact absurd (jsLe_le.mpr h) h1
        · exact h
      simp [getPrivateRoomId, h1, min_eq_right hba, max_eq_left hba]

theorem goodState_init (udb : SMap UserRec) : GoodState (initState udb) := by
  constructor
  · intro u
    simp [initState, SMap.empty]
  · intro sid c uid hc
    simp [initState, SMap.empty] at hc

theorem goodState_connect {s : ServerState} (h : GoodState s) (sid : String) :
    GoodState (connectH s sid) := by
  obtain ⟨hOn, hConn⟩ := h
  constructor
  · intro u; exact hOn u
  · intro sid' c uid hc hcu
    by_cases hs : sid' = sid
    · subst hs
      simp [connectH] at hc
      rw [← hc] at hcu
      simp at hcu
    · simp only [connectH] at hc
      rw [SMap.set_ne _ _ hs] at hc
      exact hConn sid' c uid hc hcu

/-- Transfer `GoodState` along equality of the three relevant fields. -/
theorem goodState_congr {s s' : ServerState} (h : GoodState s)
    (hg : s'.globalOnlineUsers = s.globalOnlineUsers)
    (hu : s'.userSockets = s.userSockets)
    (hc : s'.conns = s.conns) : GoodState s' := by
  obtain ⟨hOn, hConn⟩ := h
  constructor
  · intro u; rw [hg, hu]; exact hOn u
  · intro sid c uid hcc hcu
    rw [hc] at hcc
    rw [hu]
    exact hConn sid c uid hcc hcu

/-- `ConnInv` after the bind-socket pattern shared by `registerUser` and
`joinRoom`: the socket is bound to `uid` and added to that user's
connection set. -/
theorem connInv_bind {s s' : ServerState} {sid uid : String} {c2 : Conn}
    (hConn : ConnInv s)
    (hc : s'.conns = s.conns.set sid c2)
    (hu : s'.userSockets = s.userSockets.set uid (sadd sid ((s.userSockets uid).getD [])))
    (h2 : c2.userId = some uid) : ConnInv s' := by
  intro sid' cc uu hcc hcu
  rw [hc] at hcc
  rw [hu]
  by_cases hs' : sid' = sid
  · subst hs'
    rw [SMap.set_self] at hcc
    cases hcc
    rw [h2] at hcu
    cases hcu
    exact ⟨_, SMap.set_self _ _ _, mem_sadd_self _ _⟩
  · rw [SMap.set_ne _ _ hs'] at hcc
    obtain ⟨l, hl, hmem⟩ := hConn sid' cc uu hcc hcu
    by_cases hu' : uu = uid
    · subst hu'
      refine ⟨_, SMap.set_self _ _ _, mem_sadd_of_mem _ ?_⟩
      simpa [hl] using hmem
    · exact ⟨l, by rw [SMap.set_ne _ _ hu']; exact hl, hmem⟩

/-- `OnlineInv` after the bind-socket pattern, when the roster entry
already existed and is kept. -/
theorem onlineInv_bind_keep {s s' : ServerState} {sid uid : String}
    (hOn : OnlineInv s)
    (hg : s'.globalOnlineUsers = s.globalOnlineUsers)
    (hu : s'.userSockets = s.userSockets.set uid (sadd sid ((s.userSockets uid).getD [])))
    (hglob : (s.globalOnlineUsers uid).isSome) : OnlineInv s' := by
  intro u
  rw [hg, hu]
  by_cases h : u = uid
  · subst h
    constructor
    · intro _
      exact ⟨_, SMap.set_self _ _ _, sadd_ne_nil _ _⟩
    · intro _; exact hglob
  · rw [SMap.set_ne _ _ h]
    exact hOn u

/-- `OnlineInv` after the bind-socket pattern, when the roster entry is
created. -/
theorem onlineInv_bind_set {s s' : ServerState} {sid uid : String} {v : String}
    (hOn : OnlineInv s)
    (hg : s'.globalOnlineUsers = s.globalOnlineUsers.set uid v)
    (hu : s'.userSockets = s.userSockets.set uid (sadd sid ((s.userSockets uid).getD []))) :
    OnlineInv s' := by
  intro u
  rw [hg, hu]
  by_cases h : u = uid
  · subst h
    constructor
    · intro _
      exact ⟨_, SMap.set_self _ _ _, sadd_ne_nil _ _⟩
    · intro _; simp
  · rw [SMap.set_ne _ _ h, SMap.set_ne _ _ h]
    exact hOn u

theorem goodState_register {s : ServerState} (h : GoodState s)
    (sid uid fn ln : String) (pic : Option String) :
    GoodState (registerUser s sid uid fn ln pic).1 := by
  unfold registerUser
  split
  · exact h
  · split
    · exact h
    · cases hc0 : s.conns sid with
      | none => simpa [hc0] using h
      | some c =>
        simp only [hc0]
        split
        · rename_i hglob
          exact ⟨onlineInv_bind_keep h.1 rfl rfl hglob, connInv_bind h.2 rfl rfl rfl⟩
        · exact ⟨onlineInv_bind_set h.1 rfl rfl, connInv_bind h.2 rfl rfl rfl⟩

@[simp] theorem joinRoomLeave_conns (s1 : ServerState) (c1 : Conn)
    (prev : Option String) (room : String) :
    (joinRoomLeave s1 c1 prev room).2.1.conns = s1.conns := by
  unfold joinRoomLeave
  rcases prev with _ | prevRoom
  · rfl
  · by_cases h : prevRoom = room
    · simp [h]
    · simp only [h, ne_eq, not_false_eq_true, if_true]
      split <;> split <;> rfl

@[simp] theorem joinRoomLeave_userSockets (s1 : ServerState) (c1 : Conn)
    (prev : Option String) (room : String) :
    (joinRoomLeave s1 c1 prev room).2.1.userSockets = s1.userSockets := by
  unfold joinRoomLeave
  rcases prev with _ | prevRoom
  · rfl
  · by_cases h : prevRoom = room
    · simp [h]
    · simp only [h, ne_eq, not_false_eq_true, if_true]
      split <;> split <;> rfl

@[simp] theorem joinRoomLeave_globalOnlineUsers (s1 : ServerState) (c1 : Conn)
    (prev : Option String) (room : String) :
    (joinRoomLeave s1 c1 prev room).2.1.globalOnlineUsers = s1.globalOnlineUsers := by
  unfold joinRoomLeave
  rcases prev with _ | prevRoom
  · rfl
  · by_cases h : prevRoom = room
    · simp [h]
    · simp only [h, ne_eq, not_false_eq_true, if_true]
      split <;> split <;> rfl

@[simp] theorem joinRoomLeave_userId (s1 : ServerState) (c1 : Conn)
    (prev : Option String) (room : String) :
    (joinRoomLeave s1 c1 prev room).1.userId = c1.userId := by
  unfold joinRoomLeave
  rcases prev with _ | prevRoom
  · rfl
  · by_cases h : prevRoom = room
    · simp [h]
    · simp only [h, ne_eq, not_false_eq_true, if_true]

theorem onlineInv_congr {s s' : ServerState} (hOn : OnlineInv s)
    (hg : s'.globalOnlineUsers = s.globalOnlineUsers)
    (hu : s'.userSockets = s.userSockets) : OnlineInv s' := by
  intro u; rw [hg, hu]; exact hOn u

/-- `ConnInv` after replacing one live socket's record without changing its
bound user id. -/
theorem connInv_setconn_same {s s' : ServerState} {sid : String} {c0 c4 : Conn}
    (hConn : ConnInv s) (h0 : s.conns sid = some c0)
    (hc : s'.conns = s.conns.set sid c4) (hu : s'.userSockets = s.userSockets)
    (hid : c4.userId = c0.userId) : ConnInv s' := by
  intro sid' cc uu hcc hcu
  rw [hc] at hcc
  rw [hu]
  by_cases hs' : sid' = sid
  · subst hs'
    rw [SMap.set_self] at hcc
    cases hcc
    rw [hid] at hcu
    exact hConn _ _ _ h0 hcu
  · rw [SMap.set_ne _ _ hs'] at hcc
    exact hConn _ _ _ hcc hcu

theorem goodState_join {s : ServerState} (h : GoodState s)
    (sid room userId firstName lastName : String) :
    GoodState (joinRoom s sid room userId firstName lastName).1 := by
  obtain ⟨hOn, hConn⟩ := h
  unfold joinRoom
  split
  · exact ⟨hOn, hConn⟩
  · split
    · exact ⟨hOn, hConn⟩
    · cases hc0 : s.conns sid with
      | none => simpa [hc0] using And.intro hOn hConn
      | some c0 =>
        simp only [hc0]
        by_cases hreb : c0.userId = some userId
        · -- already bound to this user: no userSockets change
          simp only [hreb, ne_eq, not_true_eq_false, ite_false]
          split
          · refine ⟨onlineInv_congr hOn ?_ ?_, ?_⟩
            · show (joinRoomLeave _ _ _ _).2.1.globalOnlineUsers = _
              rw [joinRoomLeave_globalOnlineUsers]
            · show (joinRoomLeave _ _ _ _).2.1.userSockets = _
              rw [joinRoomLeave_userSockets]
            · exact connInv_setconn_same hConn hc0
                (by show (joinRoomLeave _ _ _ _).2.1.conns.set sid _ = _
                    rw [joinRoomLeave_conns])
                (by show (joinRoomLeave _ _ _ _).2.1.userSockets = _
                    rw [joinRoomLeave_userSockets])
                (by show (joinRoomLeave _ _ _ _).1.userId = c0.userId
                    rw [joinRoomLeave_userId])
          · -- unreachable: the socket is bound, so the roster entry exists
            rename_i hglob
            exfalso
            apply hglob
            obtain ⟨l, hl, hmem⟩ := hConn sid c0 userId hc0 hreb
            have hsome : (s.globalOnlineUsers userId).isSome :=
              (hOn userId).mpr ⟨l, hl, List.ne_nil_of_mem hmem⟩
            show ((joinRoomLeave _ _ _ _).2.1.globalOnlineUsers userId).isSome = true
            rw [joinRoomLeave_globalOnlineUsers]
            exact hsome
        · -- re-bind: same pattern as registration
          simp only [hreb, ne_eq, not_false_eq_true, ite_true]
          split
          · rename_i hglob
            constructor
            · exact onlineInv_bind_keep hOn
                (by show (joinRoomLeave _ _ _ _).2.1.globalOnlineUsers = _
                    rw [joinRoomLeave_globalOnlineUsers])
                (by show (joinRoomLeave _ _ _ _).2.1.userSockets = _
                    rw [joinRoomLeave_userSockets])
                (by rw [joinRoomLeave_globalOnlineUsers] at hglob
                    exact hglob)
            · exact connInv_bind hConn
                (by show (joinRoomLeave _ _ _ _).2.1.conns.set sid _ = _
                    rw [joinRoomLeave_conns])
                (by show (joinRoomLeave _ _ _ _).2.1.userSockets = _
                    rw [joinRoomLeave_userSockets])
                (by show (joinRoomLeave _ _ _ _).1.userId = some userId
                    rw [joinRoomLeave_userId])
          · constructor
            · exact onlineInv_bind_set hOn
                (by show (joinRoomLeave _ _ _ _).2.1.globalOnlineUsers.set userId _ = _
                    rw [joinRoomLeave_globalOnlineUsers])
                (by show (joinRoomLeave _ _ _ _).2.1.userSockets = _
                    rw [joinRoomLeave_userSockets])
            · exact connInv_bind hConn
                (by show (joinRoomLeave _ _ _ _).2.1.conns.set sid _ = _
                    rw [joinRoomLeave_conns])
                (by show (joinRoomLeave _ _ _ _).2.1.userSockets = _
                    rw [joinRoomLeave_userSockets])
                (by show (joinRoomLeave _ _ _ _).1.userId = some userId
                    rw [joinRoomLeave_userId])

theorem sdel_eq_nil {x : String} {s : List String} (h : sdel x s = []) :
    ∀ y ∈ s, y = x := by
  intro y hy
  by_contra hne
  exact absurd h (List.ne_nil_of_mem (mem_sdel_of_mem hy hne))

@[simp] theorem disconnectPass1_conns (s : ServerState) (sid : String) :
    (disconnectPass1 s sid).1.conns = s.conns := by
  unfold disconnectPass1
  dsimp only
  repeat' first | rfl | split

@[simp] theorem disconnectPass1_userSockets (s : ServerState) (sid : String) :
    (disconnectPass1 s sid).1.userSockets = s.userSockets := by
  unfold disconnectPass1
  dsimp only
  repeat' first | rfl | split

@[simp] theorem disconnectPass1_globalOnlineUsers (s : ServerState) (sid : String) :
    (disconnectPass1 s sid).1.globalOnlineUsers = s.globalOnlineUsers := by
  unfold disconnectPass1
  dsimp only
  repeat' first | rfl | split

@[simp] theorem disconnectRoomStep_conns (fn uid : String)
    (acc : ServerState × List OutEvent) (room : String) :
    (disconnectRoomStep fn uid acc room).1.conns = acc.1.conns := by
  rcases acc with ⟨st, evs⟩
  unfold disconnectRoomStep roomStepPriv roomStepPub
  dsimp only
  repeat' first | rfl | split

@[simp] theorem disconnectRoomStep_userSockets (fn uid : String)
    (acc : ServerState × List OutEvent) (room : String) :
    (disconnectRoomStep fn uid acc room).1.userSockets = acc.1.userSockets := by
  rcases acc with ⟨st, evs⟩
  unfold disconnectRoomStep roomStepPriv roomStepPub
  dsimp only
  repeat' first | rfl | split

@[simp] theorem disconnectRoomStep_globalOnlineUsers (fn uid : String)
    (acc : ServerState × List OutEvent) (room : String) :
    (disconnectRoomStep fn uid acc room).1.globalOnlineUsers = acc.1.globalOnlineUsers := by
  rcases acc with ⟨st, evs⟩
  unfold disconnectRoomStep roomStepPriv roomStepPub
  dsimp only
  repeat' first | rfl | split

theorem foldl_roomStep_conns (fn uid : String) (rooms : List String) :
    ∀ acc, ((rooms.foldl (disconnectRoomStep fn uid) acc).1.conns = acc.1.conns) := by
  induction rooms with
  | nil => intro acc; rfl
  | cons r rs ih =>
    intro acc
    rw [List.foldl_cons, ih, disconnectRoomStep_conns]

theorem foldl_roomStep_userSockets (fn uid : String) (rooms : List String) :
    ∀ acc, ((rooms.foldl (disconnectRoomStep fn uid) acc).1.userSockets = acc.1.userSockets) := by
  induction rooms with
  | nil => intro acc; rfl
  | cons r rs ih =>
    intro acc
    rw [List.foldl_cons, ih, disconnectRoomStep_userSockets]

theorem foldl_roomStep_globalOnlineUsers (fn uid : String) (rooms : List String) :
    ∀ acc, ((rooms.foldl (disconnectRoomStep fn uid) acc).1.globalOnlineUsers
      = acc.1.globalOnlineUsers) := by
  induction rooms with
  | nil => intro acc; rfl
  | cons r rs ih =>
    intro acc
    rw [List.foldl_cons, ih, disconnectRoomStep_globalOnlineUsers]

theorem goodState_disconnect23 {s1 : ServerState} {sid : String} {c : Conn}
    (hG : GoodState s1) (hc : s1.conns sid = some c) :
    GoodState { (disconnectPass23 s1 sid c).1 with
      conns := ((disconnectPass23 s1 sid c).1.conns).del sid } := by
  obtain ⟨hOn, hConn⟩ := hG
  unfold disconnectPass23
  cases huid : c.userId with
  | none =>
    show GoodState { s1 with conns := s1.conns.del sid }
    constructor
    · intro u; exact hOn u
    · intro sid' cc uu hcc hcu
      have hcc' : (s1.conns.del sid) sid' = some cc := hcc
      by_cases hs' : sid' = sid
      · subst hs'; rw [SMap.del_self] at hcc'; cases hcc'
      · rw [SMap.del_ne _ hs'] at hcc'
        exact hConn _ _ _ hcc' hcu
  | some uid =>
    dsimp only
    cases hus : s1.userSockets uid with
    | none =>
      show GoodState { s1 with conns := s1.conns.del sid }
      constructor
      · intro u; exact hOn u
      · intro sid' cc uu hcc hcu
        have hcc' : (s1.conns.del sid) sid' = some cc := hcc
        by_cases hs' : sid' = sid
        · subst hs'; rw [SMap.del_self] at hcc'; cases hcc'
        · rw [SMap.del_ne _ hs'] at hcc'
          exact hConn _ _ _ hcc' hcu
    | some sockets =>
      dsimp only
      generalize hsp : sdel sid sockets = sockets'
      cases sockets' with
      | nil =>
        constructor
        · intro u
          dsimp only
          rw [foldl_roomStep_globalOnlineUsers, foldl_roomStep_userSockets]
          dsimp only
          by_cases hu : u = uid
          · subst hu
            rw [SMap.del_self, SMap.del_self]
            simp
          · rw [SMap.del_ne _ hu, SMap.del_ne _ hu]
            exact hOn u
        · intro sid' cc uu hcc hcu
          dsimp only at hcc
          rw [foldl_roomStep_conns] at hcc
          dsimp only at hcc
          by_cases hs' : sid' = sid
          · subst hs'; rw [SMap.del_self] at hcc; cases hcc
          · rw [SMap.del_ne _ hs'] at hcc
            obtain ⟨l, hl, hmem⟩ := hConn _ _ _ hcc hcu
            dsimp only
            rw [foldl_roomStep_userSockets]
            dsimp only
            by_cases huu : uu = uid
            · subst huu
              rw [hus] at hl
              cases hl
              exact absurd (sdel_eq_nil hsp _ hmem) hs'
            · rw [SMap.del_ne _ huu]
              exact ⟨l, hl, hmem⟩
      | cons a as =>
        constructor
        · intro u
          dsimp only
          rw [foldl_roomStep_globalOnlineUsers, foldl_roomStep_userSockets]
          dsimp only
          by_cases hu : u = uid
          · subst hu
            rw [SMap.set_self]
            constructor
            · intro _
              exact ⟨a :: as, rfl, by simp⟩
            · intro _
              apply (hOn u).mpr
              refine ⟨sockets, hus, ?_⟩
              intro hnil
              rw [hnil] at hsp
              simp [sdel] at hsp
          · rw [SMap.set_ne _ _ hu]
            exact hOn u
        · intro sid' cc uu hcc hcu
          dsimp only at hcc
          rw [foldl_roomStep_conns] at hcc
          dsimp only at hcc
          by_cases hs' : sid' = sid
          · subst hs'; rw [SMap.del_self] at hcc; cases hcc
          · rw [SMap.del_ne _ hs'] at hcc
            obtain ⟨l, hl, hmem⟩ := hConn _ _ _ hcc hcu
            dsimp only
            rw [foldl_roomStep_userSockets]
            dsimp only
            by_cases huu : uu = uid
            · subst huu
              rw [hus] at hl
              cases hl
              refine ⟨a :: as, SMap.set_self _ _ _, ?_⟩
              rw [← hsp]
              exact mem_sdel_of_mem hmem hs'
            · rw [SMap.set_ne _ _ huu]
              exact ⟨l, hl, hmem⟩

theorem goodState_disconnect {s : ServerState} (h : GoodState s) (sid : String) :
    GoodState (disconnectH s sid).1 := by
  unfold disconnectH
  cases hc : s.conns sid with
  | none => simpa using h
  | some c =>
    show GoodState { (disconnectPass23 (disconnectPass1 s sid).1 sid c).1 with
      conns := ((disconnectPass23 (disconnectPass1 s sid).1 sid c).1.conns).del sid }
    have h1 : GoodState (disconnectPass1 s sid).1 :=
      goodState_congr h (by simp) (by simp) (by simp)
    have hc1 : (disconnectPass1 s sid).1.conns sid = some c := by
      rw [disconnectPass1_conns]; exact hc
    exact goodState_disconnect23 h1 hc1

theorem goodState_presenceStep {s : ServerState} (h : GoodState s) (e : PresenceEv) :
    GoodState (presenceStep s e) := by
  cases e with
  | connect sid => exact goodState_connect h sid
  | register sid u f l p => exact goodState_register h sid u f l p
  | joinRoomEv sid r u f l => exact goodState_join h sid r u f l
  | disconnect sid => exact goodState_disconnect h sid

theorem goodState_foldl (evs : List PresenceEv) :
    ∀ s, GoodState s → GoodState (evs.foldl presenceStep s) := by
  induction evs with
  | nil => intro s h; exact h
  | cons e rest ih =>
    intro s h
    rw [List.foldl_cons]
    exact ih _ (goodState_presenceStep h e)

/-- **C1.** For every sequence of `registerUser`, `joinRoom` and
`disconnect` events, over any number of connections and user ids, a user
id has an entry in the Global Online Roster (`globalOnlineUsers`) iff that
user id's User Connection Set (`userSockets`) exists and is non-empty. -/
theorem globalOnline_iff_userSockets_nonempty (udb : SMap UserRec)
    (evs : List PresenceEv) (u : String) :
    ((presenceRun udb evs).globalOnlineUsers u).isSome ↔
      ∃ l, (presenceRun udb evs).userSockets u = some l ∧ l ≠ [] := by
  have h : GoodState (presenceRun udb evs) :=
    goodState_foldl evs (initState udb) (goodState_init udb)
  exact h.1 u

/-- **C6.** When a connection whose current public room is `A` handles
`joinRoom` for a different room `B`, the leave effects for `A` (display
name removed from `A`'s membership set, typing entry cleared, `userLeft`
broadcast to `A`) are fully applied and emitted strictly before the
`userJoined` broadcast for `B`: the emitted list starts with `userLeft`
for `A`, possibly followed by `userStoppedTyping` for `A`, before
`userJoined` for `B`, and the final state no longer lists the old display
name in `A`'s membership or typing set. -/
theorem joinRoom_switch_leaves_before_join
    (s : ServerState) (sid room userId firstName lastName : String)
    (ud : UserRec) (udb' : SMap UserRec) (c0 : Conn) (sess : Session)
    (A : String) (pubA : List String)
    (hguard : ¬(room = "" ∨ userId = "" ∨ userId = "undefined" ∨
      firstName = "" ∨ lastName = ""))
    (hgate : identityGate s.userDb userId = some (ud, udb'))
    (hc0 : s.conns sid = some c0)
    (hbind : c0.userId = some userId)
    (hsess : s.users sid = some sess)
    (hcur : sess.currentRoom = some A)
    (hA : A ≠ room)
    (hpubA : s.usersInPublicRooms A = some pubA) :
    ∃ evT evR,
      (joinRoom s sid room userId firstName lastName).2 =
        OutEvent.userLeft (jsShow c0.firstName ++ " " ++ jsShow c0.lastName) A ::
          (evT ++ OutEvent.userJoined (firstName ++ " " ++ lastName) room :: evR) ∧
      (∀ e ∈ evT,
        e = OutEvent.userStoppedTyping
          (jsShow c0.firstName ++ " " ++ jsShow c0.lastName) A) ∧
      (∀ e ∈ evR, e = OutEvent.onlineUsersAll ∨ e = OutEvent.onlineUsersTo sid) ∧
      (joinRoom s sid room userId firstName lastName).1.usersInPublicRooms A =
        some (sdel (jsShow c0.firstName ++ " " ++ jsShow c0.lastName) pubA) ∧
      (∀ ts, s.typingUsers A = some ts →
        (joinRoom s sid room userId firstName lastName).1.typingUsers A =
          some (sdel (jsShow c0.firstName ++ " " ++ jsShow c0.lastName) ts)) := by
  unfold joinRoom
  rw [if_neg hguard, hgate, hc0]
  dsimp only
  simp only [hbind, ne_eq, not_true_eq_false, ite_false]
  rw [hsess]
  dsimp only [Option.bind]
  rw [hcur]
  unfold joinRoomLeave
  dsimp only
  rw [if_pos hA]
  dsimp only
  rw [hpubA]
  dsimp only
  cases hty : s.typingUsers A with
  | some ts =>
    dsimp only
    split
    · refine ⟨[OutEvent.userStoppedTyping
        (jsShow c0.firstName ++ " " ++ jsShow c0.lastName) A],
        [OutEvent.onlineUsersTo sid], rfl, by simp, by simp, ?_, ?_⟩
      · show ((s.usersInPublicRooms.set A _).set room _) A = _
        rw [SMap.set_ne _ _ hA, SMap.set_self]
      · intro ts' hts'
        cases hts'
        show (s.typingUsers.set A _) A = _
        rw [SMap.set_self]
    · refine ⟨[OutEvent.userStoppedTyping
        (jsShow c0.firstName ++ " " ++ jsShow c0.lastName) A],
        [OutEvent.onlineUsersAll, OutEvent.onlineUsersTo sid], rfl, by simp,
        by simp, ?_, ?_⟩
      · show ((s.usersInPublicRooms.set A _).set room _) A = _
        rw [SMap.set_ne _ _ hA, SMap.set_self]
      · intro ts' hts'
        cases hts'
        show (s.typingUsers.set A _) A = _
        rw [SMap.set_self]
  | none =>
    dsimp only
    split
    · refine ⟨[], [OutEvent.onlineUsersTo sid], rfl, by simp, by simp, ?_, ?_⟩
      · show ((s.usersInPublicRooms.set A _).set room _) A = _
        rw [SMap.set_ne _ _ hA, SMap.set_self]
      · intro ts' hts'
        cases hts'
    · refine ⟨[], [OutEvent.onlineUsersAll, OutEvent.onlineUsersTo sid], rfl,
        by simp, by simp, ?_, ?_⟩
      · show ((s.usersInPublicRooms.set A _).set room _) A = _
        rw [SMap.set_ne _ _ hA, SMap.set_self]
      · intro ts' hts'
        cases hts'

theorem hasRoom_fanoutStep (room receiverId : String) {st : ServerState}
    {rid' : String} (rid : String) (h : hasRoom st rid' room) :
    hasRoom (fanoutStep room receiverId st rid) rid' room := by
  unfold fanoutStep
  cases hc : st.conns rid with
  | none => exact h
  | some c =>
    by_cases hmem : room ∈ c.rooms
    · simp only [hmem, if_true]; exact h
    · simp only [hmem, if_false]
      intro c' hc'
      by_cases hr : rid' = rid
      · subst hr
        have : (st.conns.set rid' { c with rooms := sadd room c.rooms }) rid' =
            some c' := hc'
        rw [SMap.set_self] at this
        cases this
        exact mem_sadd_self _ _
      · have : (st.conns.set rid { c with rooms := sadd room c.rooms }) rid' =
            some c' := hc'
        rw [SMap.set_ne _ _ hr] at this
        exact h c' this

theorem fanoutStep_hasRoom_self (room receiverId : String) (st : ServerState)
    (rid : String) : hasRoom (fanoutStep room receiverId st rid) rid room := by
  unfold fanoutStep
  cases hc : st.conns rid with
  | none =>
    intro c' hc'
    rw [hc] at hc'
    cases hc'
  | some c =>
    by_cases hmem : room ∈ c.rooms
    · simp only [hmem, if_true]
      intro c' hc'
      rw [hc] at hc'
      cases hc'
      exact hmem
    · simp only [hmem, if_false]
      intro c' hc'
      have : (st.conns.set rid { c with rooms := sadd room c.rooms }) rid =
          some c' := hc'
      rw [SMap.set_self] at this
      cases this
      exact mem_sadd_self _ _

theorem fanoutStep_id {room receiverId : String} {st : ServerState} {rid : String}
    (h : hasRoom st rid room) : fanoutStep room receiverId st rid = st := by
  unfold fanoutStep
  cases hc : st.conns rid with
  | none => rfl
  | some c => simp only [h c hc, if_true]

theorem foldl_fanout_hasRoom_pres {room receiverId : String} (l : List String) :
    ∀ {st : ServerState} {rid' : String}, hasRoom st rid' room →
      hasRoom (l.foldl (fanoutStep room receiverId) st) rid' room := by
  induction l with
  | nil => intro st rid' h; exact h
  | cons r rs ih =>
    intro st rid' h
    rw [List.foldl_cons]
    exact ih (hasRoom_fanoutStep room receiverId r h)

theorem foldl_fanout_hasRoom_mem {room receiverId : String} (l : List String) :
    ∀ (st : ServerState) (rid : String), rid ∈ l →
      hasRoom (l.foldl (fanoutStep room receiverId) st) rid room := by
  induction l with
  | nil => intro st rid h; cases h
  | cons r rs ih =>
    intro st rid h
    rw [List.foldl_cons]
    rcases List.mem_cons.mp h with h1 | h2
    · subst h1
      exact foldl_fanout_hasRoom_pres rs (fanoutStep_hasRoom_self room receiverId st rid)
    · exact ih _ rid h2

theorem foldl_fanout_id {room receiverId : String} (l : List String) :
    ∀ (st : ServerState), (∀ rid ∈ l, hasRoom st rid room) →
      l.foldl (fanoutStep room receiverId) st = st := by
  induction l with
  | nil => intro st _; rfl
  | cons r rs ih =>
    intro st h
    rw [List.foldl_cons, fanoutStep_id (h r (List.mem_cons_self r rs))]
    exact ih st (fun rid hrid => h rid (List.mem_cons_of_mem r hrid))

theorem selfJoin_hasRoom (s : ServerState) (sid : String) (a : JoinPrivateRoomArgs)
    (room : String) : hasRoom (selfJoinPrivate s sid a room) sid room := by
  unfold selfJoinPrivate
  cases hc : s.conns sid with
  | none =>
    intro c' hc'
    rw [hc] at hc'
    cases hc'
  | some c =>
    by_cases hmem : room ∈ c.rooms
    · simp only [hmem, if_true]
      intro c' hc'
      rw [hc] at hc'
      cases hc'
      exact hmem
    · simp only [hmem, if_false]
      intro c' hc'
      dsimp only at hc'
      rw [SMap.set_self] at hc'
      cases hc'
      exact mem_sadd_self _ _

/-- The claim's second part, directly: when the calling connection's
active-room set already contains the canonical id, the self-join step is a
no-op on the state. -/
theorem selfJoin_id {s : ServerState} {sid : String} {a : JoinPrivateRoomArgs}
    {room : String} (h : hasRoom s sid room) :
    selfJoinPrivate s sid a room = s := by
  unfold selfJoinPrivate
  cases hc : s.conns sid with
  | none => rfl
  | some c => simp only [h c hc, if_true]

@[simp] theorem selfJoin_userSockets (s : ServerState) (sid : String)
    (a : JoinPrivateRoomArgs) (room : String) :
    (selfJoinPrivate s sid a room).userSockets = s.userSockets := by
  unfold selfJoinPrivate
  repeat' first | rfl | split

@[simp] theorem fanoutStep_userSockets (room receiverId : String)
    (st : ServerState) (rid : String) :
    (fanoutStep room receiverId st rid).userSockets = st.userSockets := by
  unfold fanoutStep
  repeat' first | rfl | split

theorem foldl_fanout_userSockets {room receiverId : String} (l : List String) :
    ∀ (st : ServerState),
      (l.foldl (fanoutStep room receiverId) st).userSockets = st.userSockets := by
  induction l with
  | nil => intro st; rfl
  | cons r rs ih =>
    intro st
    rw [List.foldl_cons, ih, fanoutStep_userSockets]

/-- When the caller and all of the receiver's live sockets already hold
the canonical room, `joinPrivateRoom` changes neither the socket table nor
the private-room membership. -/
theorem joinPrivateRoom_noop_of_hasRoom (s : ServerState) (sid : String)
    (a : JoinPrivateRoomArgs)
    (hSelf : hasRoom s sid (getPrivateRoomId a.senderId a.receiverId))
    (hRecv : ∀ rid l, s.userSockets a.receiverId = some l → rid ∈ l →
      hasRoom s rid (getPrivateRoomId a.senderId a.receiverId)) :
    (joinPrivateRoom s sid a).1.conns = s.conns ∧
    (joinPrivateRoom s sid a).1.usersInPrivateRooms = s.usersInPrivateRooms := by
  unfold joinPrivateRoom
  split
  · exact ⟨rfl, rfl⟩
  · cases hgate : dualGate s.userDb a.senderId a.receiverId with
    | inr e => exact ⟨rfl, rfl⟩
    | inl odb =>
      dsimp only
      rw [selfJoin_id (show hasRoom { s with userDb := odb.getD s.userDb } sid
        (getPrivateRoomId a.senderId a.receiverId) from hSelf)]
      dsimp only
      cases hl : s.userSockets a.receiverId with
      | none => exact ⟨rfl, rfl⟩
      | some l =>
        dsimp only
        rw [foldl_fanout_id l { s with userDb := odb.getD s.userDb }
          (fun rid hrid => hRecv rid l hl hrid)]
        exact ⟨rfl, rfl⟩

/-- After one `joinPrivateRoom`, either the call was rejected and the state
is unchanged, or the caller and every live receiver socket hold the
canonical room. -/
theorem joinPrivateRoom_post (s : ServerState) (sid : String)
    (a : JoinPrivateRoomArgs) :
    (joinPrivateRoom s sid a).1 = s ∨
    (hasRoom (joinPrivateRoom s sid a).1 sid
        (getPrivateRoomId a.senderId a.receiverId) ∧
      (∀ rid l, (joinPrivateRoom s sid a).1.userSockets a.receiverId = some l →
        rid ∈ l → hasRoom (joinPrivateRoom s sid a).1 rid
          (getPrivateRoomId a.senderId a.receiverId))) := by
  unfold joinPrivateRoom
  split
  · exact Or.inl rfl
  · cases hgate : dualGate s.userDb a.senderId a.receiverId with
    | inr e => exact Or.inl rfl
    | inl odb =>
      right
      dsimp only
      cases hl2 : (selfJoinPrivate { s with userDb := odb.getD s.userDb } sid a
          (getPrivateRoomId a.senderId a.receiverId)).userSockets a.receiverId with
      | none =>
        constructor
        · exact selfJoin_hasRoom _ _ _ _
        · intro rid l hl hmem
          rw [hl2] at hl
          cases hl
      | some l2 =>
        constructor
        · exact foldl_fanout_hasRoom_pres l2 (selfJoin_hasRoom _ _ _ _)
        · intro rid l hl hmem
          rw [foldl_fanout_userSockets, hl2] at hl
          cases hl
          exact foldl_fanout_hasRoom_mem l2 _ rid hmem

/-- **C7.** Calling `joinPrivateRoom` twice with identical arguments yields
the same membership state — every connection's active-room set and the
`usersInPrivateRooms` participant map — as calling it once; and when the
calling connection's active-room set already contains the canonical id,
the self-join step performs no state change at all. -/
theorem joinPrivateRoom_idempotent (s : ServerState) (sid : String)
    (a : JoinPrivateRoomArgs) :
    (∀ rid, ((joinPrivateRoom (joinPrivateRoom s sid a).1 sid a).1.conns rid).map
        Conn.rooms = ((joinPrivateRoom s sid a).1.conns rid).map Conn.rooms) ∧
    ((joinPrivateRoom (joinPrivateRoom s sid a).1 sid a).1.usersInPrivateRooms =
      (joinPrivateRoom s sid a).1.usersInPrivateRooms) ∧
    (∀ c, s.conns sid = some c →
      getPrivateRoomId a.senderId a.receiverId ∈ c.rooms →
      selfJoinPrivate s sid a (getPrivateRoomId a.senderId a.receiverId) = s) := by
  have hself : ∀ c, s.conns sid = some c →
      getPrivateRoomId a.senderId a.receiverId ∈ c.rooms →
      selfJoinPrivate s sid a (getPrivateRoomId a.senderId a.receiverId) = s := by
    intro c hc hmem
    refine selfJoin_id ?_
    intro c' hc'
    rw [hc] at hc'
    cases hc'
    exact hmem
  rcases joinPrivateRoom_post s sid a with hfs | ⟨h1, h2⟩
  · refine ⟨?_, ?_, hself⟩
    · intro rid; simp only [hfs]
    · simp only [hfs]
  · have hnoop := joinPrivateRoom_noop_of_hasRoom _ sid a h1 h2
    refine ⟨?_, hnoop.2, hself⟩
    intro rid
    rw [hnoop.1]

theorem selfJoin_priv_mono {s : ServerState} {sid : String} {a : JoinPrivateRoomArgs}
    {room x : String} (h : x ∈ (s.usersInPrivateRooms room).getD []) :
    x ∈ ((selfJoinPrivate s sid a room).usersInPrivateRooms room).getD [] := by
  unfold selfJoinPrivate
  cases hc : s.conns sid with
  | none => exact h
  | some c =>
    by_cases hmem : room ∈ c.rooms
    · simp only [hmem, if_true]; exact h
    · simp only [hmem, if_false]
      show x ∈ ((s.usersInPrivateRooms.set room _) room).getD []
      rw [SMap.set_self]
      exact mem_sadd_of_mem _ h

theorem fanoutStep_priv_mono {room receiverId x : String} {st : ServerState}
    (rid : String) (h : x ∈ (st.usersInPrivateRooms room).getD []) :
    x ∈ ((fanoutStep room receiverId st rid).usersInPrivateRooms room).getD [] := by
  unfold fanoutStep
  cases hc : st.conns rid with
  | none => exact h
  | some c =>
    by_cases hmem : room ∈ c.rooms
    · simp only [hmem, if_true]; exact h
    · simp only [hmem, if_false]
      show x ∈ ((st.usersInPrivateRooms.set room _) room).getD []
      rw [SMap.set_self]
      exact mem_sadd_of_mem _ h

theorem foldl_fanout_priv_mono {room receiverId x : String} (l : List String) :
    ∀ (st : ServerState), x ∈ (st.usersInPrivateRooms room).getD [] →
      x ∈ (((l.foldl (fanoutStep room receiverId) st)).usersInPrivateRooms room).getD [] := by
  induction l with
  | nil => intro st h; exact h
  | cons r rs ih =>
    intro st h
    rw [List.foldl_cons]
    exact ih _ (fanoutStep_priv_mono r h)

theorem fanoutStep_estab {room receiverId : String} {st : ServerState} {rid : String}
    (h : liveNotHas st rid room) :
    receiverId ∈ ((fanoutStep room receiverId st rid).usersInPrivateRooms room).getD [] := by
  obtain ⟨c, hc, hmem⟩ := h
  unfold fanoutStep
  rw [hc]
  simp only [hmem, if_false]
  show receiverId ∈ ((st.usersInPrivateRooms.set room _) room).getD []
  rw [SMap.set_self]
  exact mem_sadd_self _ _

theorem liveNotHas_selfJoin_ne {s : ServerState} {sid rid room : String}
    {a : JoinPrivateRoomArgs} (hne : rid ≠ sid) (h : liveNotHas s rid room) :
    liveNotHas (selfJoinPrivate s sid a room) rid room := by
  obtain ⟨c, hc, hmem⟩ := h
  unfold selfJoinPrivate
  cases hcs : s.conns sid with
  | none => exact ⟨c, hc, hmem⟩
  | some cs =>
    by_cases hm : room ∈ cs.rooms
    · simp only [hm, if_true]; exact ⟨c, hc, hmem⟩
    · simp only [hm, if_false]
      refine ⟨c, ?_, hmem⟩
      show (s.conns.set sid _) rid = some c
      rw [SMap.set_ne _ _ hne]
      exact hc

theorem liveNotHas_fanoutStep_ne {room receiverId : String} {st : ServerState}
    {rid r : String} (hne : rid ≠ r) (h : liveNotHas st rid room) :
    liveNotHas (fanoutStep room receiverId st r) rid room := by
  obtain ⟨c, hc, hmem⟩ := h
  unfold fanoutStep
  cases hcr : st.conns r with
  | none => exact ⟨c, hc, hmem⟩
  | some cr =>
    by_cases hm : room ∈ cr.rooms
    · simp only [hm, if_true]; exact ⟨c, hc, hmem⟩
    · simp only [hm, if_false]
      refine ⟨c, ?_, hmem⟩
      show (st.conns.set r _) rid = some c
      rw [SMap.set_ne _ _ hne]
      exact hc

theorem foldl_fanout_estab {room receiverId : String} (l : List String) :
    ∀ (st : ServerState), (∃ rid ∈ l, liveNotHas st rid room) →
      receiverId ∈ (((l.foldl (fanoutStep room receiverId) st)).usersInPrivateRooms
        room).getD [] := by
  induction l with
  | nil =>
    rintro st ⟨rid, hmem, _⟩
    cases hmem
  | cons r rs ih =>
    rintro st ⟨rid, hmem, hlnh⟩
    rw [List.foldl_cons]
    by_cases hrr : rid = r
    · subst hrr
      exact foldl_fanout_priv_mono rs _ (fanoutStep_estab hlnh)
    · rcases List.mem_cons.mp hmem with h1 | h2
      · exact absurd h1 hrr
      · exact ih _ ⟨rid, h2, liveNotHas_fanoutStep_ne hrr hlnh⟩

/-- **C8 (amended).** A `joinPrivateRoom` that passes validation joins
every *live* connection recorded in the receiver's User Connection Set
into the canonical private room.  The receiver's user id is guaranteed to
be in the room's participant set when at least one live receiver
connection other than the caller was not already a member (it is the
newly-joined fan-out targets that insert it), and an existing participant
entry is never removed. -/
theorem joinPrivateRoom_fanout (s : ServerState) (sid : String)
    (a : JoinPrivateRoomArgs)
    (hguard : ¬(a.senderId = "" ∨ a.receiverId = "" ∨ a.senderFirstName = "" ∨
      a.senderLastName = ""))
    (odb : Option (SMap UserRec))
    (hgate : dualGate s.userDb a.senderId a.receiverId = Sum.inl odb) :
    (∀ rid l, (joinPrivateRoom s sid a).1.userSockets a.receiverId = some l →
      rid ∈ l → hasRoom (joinPrivateRoom s sid a).1 rid
        (getPrivateRoomId a.senderId a.receiverId)) ∧
    ((∃ l, s.userSockets a.receiverId = some l ∧ ∃ rid, rid ∈ l ∧ rid ≠ sid ∧
        liveNotHas s rid (getPrivateRoomId a.senderId a.receiverId)) →
      a.receiverId ∈ (((joinPrivateRoom s sid a).1.usersInPrivateRooms
        (getPrivateRoomId a.senderId a.receiverId)).getD [])) ∧
    (a.receiverId ∈ ((s.usersInPrivateRooms
        (getPrivateRoomId a.senderId a.receiverId)).getD []) →
      a.receiverId ∈ (((joinPrivateRoom s sid a).1.usersInPrivateRooms
        (getPrivateRoomId a.senderId a.receiverId)).getD [])) := by
  unfold joinPrivateRoom
  rw [if_neg hguard, hgate]
  dsimp only
  cases hl2 : (selfJoinPrivate { s with userDb := odb.getD s.userDb } sid a
      (getPrivateRoomId a.senderId a.receiverId)).userSockets a.receiverId with
  | none =>
    dsimp only
    refine ⟨?_, ?_, ?_⟩
    · intro rid l hl hmem
      rw [hl2] at hl
      cases hl
    · rintro ⟨l, hsl, rid, hmem, hne, hlnh⟩
      rw [selfJoin_userSockets] at hl2
      have : s.userSockets a.receiverId = none := hl2
      rw [this] at hsl
      cases hsl
    · intro h
      exact selfJoin_priv_mono h
  | some l2 =>
    dsimp only
    refine ⟨?_, ?_, ?_⟩
    · intro rid l hl hmem
      rw [foldl_fanout_userSockets, hl2] at hl
      cases hl
      exact foldl_fanout_hasRoom_mem l2 _ rid hmem
    · rintro ⟨l, hsl, rid, hmem, hne, hlnh⟩
      rw [selfJoin_userSockets] at hl2
      have hsl2 : s.userSockets a.receiverId = some l2 := hl2
      rw [hsl2] at hsl
      cases hsl
      refine foldl_fanout_estab l2 _ ⟨rid, hmem, ?_⟩
      exact liveNotHas_selfJoin_ne hne hlnh
    · intro h
      exact foldl_fanout_priv_mono l2 _ (selfJoin_priv_mono h)

/-- **C8 (counterexample).** In the reachable state `c8s9` the receiver
`B`'s User Connection Set is `["r2"]` and `r2` is live with the canonical
room in its active-room set, yet after a *successful* `joinPrivateRoom`
(the acknowledgment succeeds) the receiver's user id `B` is *not* in the
room's participant set — contradicting the claim that after completion
the receiver's user-id is in the room's participant set.  (The emitted
list being exactly `[callbackOk]` shows the call succeeded.) -/
theorem joinPrivateRoom_fanout_counterexample :
    c8final.2 = [OutEvent.callbackOk] ∧
    (c8s9.userSockets "B").getD [] = ["r2"] ∧
    (c8s9.conns "r2").map Conn.rooms = some [getPrivateRoomId "A" "B"] ∧
    "B" ∉ ((c8final.1.usersInPrivateRooms (getPrivateRoomId "A" "B")).getD []) := by
  refine ⟨rfl, rfl, rfl, ?_⟩
  decide

theorem joinPrivateRoom_fanout_witness :
    (∀ rid l, (joinPrivateRoom c8s6 "s" c8args).1.userSockets "B" = some l →
      rid ∈ l → hasRoom (joinPrivateRoom c8s6 "s" c8args).1 rid
        (getPrivateRoomId "A" "B")) ∧
    ((∃ l, c8s6.userSockets "B" = some l ∧ ∃ rid, rid ∈ l ∧ rid ≠ "s" ∧
        liveNotHas c8s6 rid (getPrivateRoomId "A" "B")) →
      "B" ∈ (((joinPrivateRoom c8s6 "s" c8args).1.usersInPrivateRooms
        (getPrivateRoomId "A" "B")).getD [])) ∧
    ("B" ∈ ((c8s6.usersInPrivateRooms (getPrivateRoomId "A" "B")).getD []) →
      "B" ∈ (((joinPrivateRoom c8s6 "s" c8args).1.usersInPrivateRooms
        (getPrivateRoomId "A" "B")).getD [])) :=
  joinPrivateRoom_fanout c8s6 "s" c8args (by decide) (some c8s6.userDb) rfl

theorem joinRoom_switch_witness :
    ∃ evT evR,
      (joinRoom c6state "s1" "general" "u1" "Ada" "L").2 =
        OutEvent.userLeft "Ada L" "lobby" ::
          (evT ++ OutEvent.userJoined "Ada L" "general" :: evR) ∧
      (∀ e ∈ evT, e = OutEvent.userStoppedTyping "Ada L" "lobby") ∧
      (∀ e ∈ evR, e = OutEvent.onlineUsersAll ∨ e = OutEvent.onlineUsersTo "s1") ∧
      (joinRoom c6state "s1" "general" "u1" "Ada" "L").1.usersInPublicRooms "lobby" =
        some (sdel "Ada L" ["Ada L"]) ∧
      (∀ ts, c6state.typingUsers "lobby" = some ts →
        (joinRoom c6state "s1" "general" "u1" "Ada" "L").1.typingUsers "lobby" =
          some (sdel "Ada L" ts)) :=
  joinRoom_switch_leaves_before_join c6state "s1" "general" "u1" "Ada" "L"
    ⟨"Ada", "L", false, some "p"⟩ c6udb c6conn ⟨"u1", "Ada", "L", some "lobby"⟩
    "lobby" ["Ada L"] (by decide) rfl rfl rfl rfl rfl (by decide) rfl

theorem joinPrivateRoom_idempotent_witness :
    ((joinPrivateRoom (joinPrivateRoom c7state "s1" c7args).1 "s1" c7args).1.usersInPrivateRooms =
      (joinPrivateRoom c7state "s1" c7args).1.usersInPrivateRooms) ∧
    selfJoinPrivate c7state "s1" c7args (getPrivateRoomId "A" "B") = c7state :=
  ⟨(joinPrivateRoom_idempotent c7state "s1" c7args).2.1,
   (joinPrivateRoom_idempotent c7state "s1" c7args).2.2 c7conn rfl (by decide)⟩

/-- **C3 (amended).** For `editMessage` by the message's owner, editing to
empty (or all-whitespace) text is rejected exactly when the message *has*
a file attachment: a file-only message cannot be edited to pure-empty, a
file message with added text can be edited, and a message without a file
can be edited even to empty text.  A rejected edit emits a targeted
`messageError` and performs no storage mutation; an accepted edit stores
the new text with the edited flag. -/
theorem editMessage_empty_text_rule (s : ServerState) (sid : String)
    (a : EditMessageArgs) (msg : Msg)
    (hfound : s.msgDb a.messageId = some msg)
    (howner : msg.sender = a.userId) :
    ((truthy msg.fileUrl ∧ (a.newText = "" ∨ a.newText.trim = "")) →
      (editMessage s sid a).1.msgDb = s.msgDb ∧
      (editMessage s sid a).2 =
        [OutEvent.messageErrorTo sid "Cannot edit a message that is solely a file."]) ∧
    (¬ (truthy msg.fileUrl ∧ (a.newText = "" ∨ a.newText.trim = "")) →
      (editMessage s sid a).1.msgDb a.messageId =
        some { msg with text := some a.newText, isEdited := true }) := by
  unfold editMessage
  rw [hfound]
  dsimp only
  rw [if_neg (show ¬ msg.sender ≠ a.userId from fun h => h howner)]
  by_cases hre : truthy msg.fileUrl ∧ (a.newText = "" ∨ a.newText.trim = "")
  · rw [if_pos hre]
    exact ⟨fun _ => ⟨rfl, rfl⟩, fun h => absurd hre h⟩
  · rw [if_neg hre]
    refine ⟨fun h => absurd h hre, fun _ => ?_⟩
    show (s.msgDb.set a.messageId _) a.messageId = _
    rw [SMap.set_self]

/-- **C3 (counterexample).** An owner's edit-to-empty of a message *with* a
file attachment is rejected (targeted `messageError`, no storage change)
— so rejection of empty edits happens precisely when a file attachment is
present, contradicting the claim that it is rejected "only when the
message has no file attachment". -/
theorem editMessage_empty_text_counterexample :
    (editMessage c3state "s1" ⟨"m1", "", "u1"⟩).2 =
      [OutEvent.messageErrorTo "s1" "Cannot edit a message that is solely a file."] ∧
    (c3state.msgDb "m1").map Msg.fileUrl = some (some "f") ∧
    (editMessage c3state "s1" ⟨"m1", "", "u1"⟩).1.msgDb "m1" = c3state.msgDb "m1" := by
  decide

theorem editMessage_empty_text_witness :
    ((truthy (some "f") ∧ (("" : String) = "" ∨ ("" : String).trim = "")) →
      (editMessage c3state "s1" ⟨"m1", "", "u1"⟩).1.msgDb = c3state.msgDb ∧
      (editMessage c3state "s1" ⟨"m1", "", "u1"⟩).2 =
        [OutEvent.messageErrorTo "s1" "Cannot edit a message that is solely a file."]) ∧
    (¬ (truthy (some "f") ∧ (("" : String) = "" ∨ ("" : String).trim = "")) →
      (editMessage c3state "s1" ⟨"m1", "", "u1"⟩).1.msgDb "m1" =
        some { sender := "u1", firstName := "N", lastName := "M",
               receiver := some "u2", chatType := "private",
               fileUrl := some "f", text := some "", isEdited := true }) :=
  editMessage_empty_text_rule c3state "s1" ⟨"m1", "", "u1"⟩
    { sender := "u1", firstName := "N", lastName := "M",
      receiver := some "u2", chatType := "private", fileUrl := some "f" }
    rfl rfl

/-- **C10.** For a successful edit of a private message whose stored
`receiverFirstName` and `receiverLastName` are both set, the
`messageEdited` payload's `receiverUsername` equals the stored
`receiverFirstName` concatenated with a space and the *sender-side*
`message.lastName` — not the stored `receiverLastName`. -/
theorem editMessage_receiverUsername_uses_sender_lastName
    (s : ServerState) (sid : String) (a : EditMessageArgs) (msg : Msg)
    (rf rl : String)
    (hfound : s.msgDb a.messageId = some msg)
    (howner : msg.sender = a.userId)
    (hnoreject : ¬ (truthy msg.fileUrl ∧ (a.newText = "" ∨ a.newText.trim = "")))
    (hchat : msg.chatType = "private")
    (hrf : msg.receiverFirstName = some rf) (hrfne : rf ≠ "")
    (hrl : msg.receiverLastName = some rl) (hrlne : rl ≠ "") :
    (editMessage s sid a).2 =
      [OutEvent.messageEdited
        (getPrivateRoomId msg.sender (msg.receiver.getD ""))
        (some (rf ++ " " ++ msg.lastName)) a.newText] := by
  unfold editMessage
  rw [hfound]
  dsimp only
  rw [if_neg (show ¬ msg.sender ≠ a.userId from fun h => h howner)]
  rw [if_neg hnoreject]
  dsimp only
  rw [if_neg (show ¬ (msg.chatType = "room" ∧ truthy msg.room) from
    fun h => by rw [hchat] at h; exact absurd h.1 (by decide))]
  rw [if_pos hchat]
  rw [if_pos (show truthy msg.receiverFirstName ∧ truthy msg.receiverLastName by
    rw [hrf, hrl]
    exact ⟨by simpa [truthy] using hrfne, by simpa [truthy] using hrlne⟩)]
  rw [hrf]
  rfl

theorem editMessage_receiverUsername_witness :
    (editMessage c3state "s1" ⟨"m2", "hello", "u1"⟩).2 =
      [OutEvent.messageEdited (getPrivateRoomId "u1" "u2")
        (some ("RF" ++ " " ++ "M")) "hello"] :=
  editMessage_receiverUsername_uses_sender_lastName c3state "s1"
    ⟨"m2", "hello", "u1"⟩
    { sender := "u1", firstName := "N", lastName := "M",
      receiver := some "u2", receiverFirstName := some "RF",
      receiverLastName := some "RL", chatType := "private" }
    "RF" "RL" rfl rfl (by decide) rfl rfl (by decide) rfl (by decide)

/-- **C4 (amended).** For every successful room send whose target room has
a typing entry, the sender's display name is removed from that entry and a
`userStoppedTyping` broadcast is emitted strictly before the
`receiveMessage` event: the emitted list is exactly
`[userStoppedTyping, receiveMessage]`.  (Private sends perform no typing
clearing at all — see the counterexample.) -/
theorem sendMessage_stops_typing_before_message
    (s : ServerState) (sid : String) (a : SendMessageArgs)
    (ud : UserRec) (udb' : SMap UserRec) (ts : List String)
    (hne : truthy a.text ∨ truthy a.fileUrl)
    (hgate : identityGate s.userDb a.userId = some (ud, udb'))
    (hreply : a.replyTo = none)
    (hty : s.typingUsers a.room = some ts) :
    (sendMessage s sid a).2 =
      [OutEvent.userStoppedTyping (a.firstName ++ " " ++ a.lastName) a.room,
       OutEvent.receiveMessage a.room ("m" ++ toString s.nextMsgId)] ∧
    (sendMessage s sid a).1.typingUsers a.room =
      some (sdel (a.firstName ++ " " ++ a.lastName) ts) := by
  unfold sendMessage
  rw [if_neg (show ¬ (¬ truthy a.text ∧ ¬ truthy a.fileUrl) from
    fun h => by rcases hne with h' | h' <;> [exact h.1 h'; exact h.2 h'])]
  rw [hgate, hreply]
  dsimp only
  unfold sendMessageCore
  dsimp only
  rw [hty]
  dsimp only
  constructor
  · rfl
  · show (s.typingUsers.set a.room _) a.room = _
    rw [SMap.set_self]

/-- **C4 (counterexample).** A successful private send whose canonical
room's typing set contains the sender's display name emits
`receivePrivateMessage` (and succeeds) while emitting *no*
`userStoppedTyping` and leaving the typing set unchanged — contradicting
the claim for private sends. -/
theorem privateMessage_no_stop_typing_counterexample :
    (privateMessage c4state "s1" c4args).2 =
      [OutEvent.receivePrivateMessageTo "s1" "m0",
       OutEvent.receivePrivateMessageRoom (getPrivateRoomId "A" "B") "m0",
       OutEvent.callbackOk] ∧
    (privateMessage c4state "s1" c4args).1.typingUsers
      (getPrivateRoomId "A" "B") = some ["N M"] := by
  decide

theorem sendMessage_stops_typing_witness :
    (sendMessage c4wstate "s1"
        ⟨"id1", "A", "N", "M", some "hi", "lobby", none, none, none, none⟩).2 =
      [OutEvent.userStoppedTyping ("N" ++ " " ++ "M") "lobby",
       OutEvent.receiveMessage "lobby" ("m" ++ toString 0)] ∧
    (sendMessage c4wstate "s1"
        ⟨"id1", "A", "N", "M", some "hi", "lobby", none, none, none, none⟩).1.typingUsers
      "lobby" = some (sdel ("N" ++ " " ++ "M") ["N M"]) :=
  sendMessage_stops_typing_before_message c4wstate "s1"
    ⟨"id1", "A", "N", "M", some "hi", "lobby", none, none, none, none⟩
    ⟨"N", "M", false, some "p"⟩ c4udb ["N M"]
    (by decide) rfl rfl rfl

theorem privateMessageCore_delivery (s : ServerState) (sid : String)
    (a : PrivateMessageArgs) (uF uL t : String)
    (ht : a.text = some t) (htne : t ≠ "")
    (hpriv : (s.usersInPrivateRooms (getPrivateRoomId a.senderId a.receiverId)).isSome) :
    (∀ rid c, s.conns rid = some c →
      getPrivateRoomId a.senderId a.receiverId ∈ c.rooms →
      deliveredPM s (privateMessageCore s sid a uF uL).2 rid) ∧
    (∀ rid, rid ∈ (s.userSockets a.receiverId).getD [] →
      ∀ c, s.conns rid = some c →
      getPrivateRoomId a.senderId a.receiverId ∉ c.rooms →
      OutEvent.privateMessageNotificationTo rid a.senderId
        (if t.length ≤ 100 then t else t.take 97 ++ "...") ∈
        (privateMessageCore s sid a uF uL).2) := by
  have hsnip : snippetOf (if truthy a.text then a.text.getD ""
      else "[File: " ++ (if truthy a.fileName then a.fileName.getD ""
        else "Shared File") ++ "]") =
      (if t.length ≤ 100 then t else t.take 97 ++ "...") := by
    rw [ht]
    have : truthy (some t) = true := by simpa [truthy] using htne
    rw [this]
    simp only [if_true, Option.getD_some, snippetOf]
    by_cases h100 : t.length ≤ 100
    · rw [if_neg (by omega), if_pos h100]
    · rw [if_pos (by omega), if_neg h100]
  unfold privateMessageCore
  dsimp only
  rw [if_pos hpriv]
  constructor
  · intro rid c hc hmem
    right
    refine ⟨getPrivateRoomId a.senderId a.receiverId, "m" ++ toString s.nextMsgId,
      c, ?_, hc, hmem⟩
    simp
  · intro rid hmem c hc hnot
    cases husl : s.userSockets a.receiverId with
    | none =>
      rw [husl] at hmem
      cases hmem
    | some l =>
      rw [husl, Option.getD_some] at hmem
      dsimp only
      have hin : OutEvent.privateMessageNotificationTo rid a.senderId
          (if t.length ≤ 100 then t else t.take 97 ++ "...") ∈
          l.filterMap (fun rid' =>
            match s.conns rid' with
            | some c' =>
              if getPrivateRoomId a.senderId a.receiverId ∈ c'.rooms then none
              else some (OutEvent.privateMessageNotificationTo rid' a.senderId
                (snippetOf (if truthy a.text then a.text.getD ""
                  else "[File: " ++ (if truthy a.fileName then a.fileName.getD ""
                    else "Shared File") ++ "]")))
            | none => none) := by
        refine List.mem_filterMap.mpr ⟨rid, hmem, ?_⟩
        rw [hc]
        dsimp only
        rw [if_neg hnot, hsnip]
      simp only [List.mem_append, List.mem_cons]
      simp only [List.mem_append] at hin ⊢
      tauto

/-- **C9.** When a private text message is sent while only some of the
receiver's connections have joined the canonical private room (so the
room's membership entry is established), every connection joined to the
room receives `receivePrivateMessage`, and every live receiver connection
not in the room receives a `privateMessageNotification` whose
`messageSnippet` is the full text when its length is at most 100
characters and otherwise the first 97 characters followed by `...`. -/
theorem privateMessage_delivery (s : ServerState) (sid : String)
    (a : PrivateMessageArgs) (t : String) (su ru : UserRec)
    (ht : a.text = some t) (htne : t ≠ "")
    (hids : ¬ (a.senderId = "" ∨ a.receiverId = "" ∨ a.senderFirstName = "" ∨
      a.senderLastName = ""))
    (hsu : s.userDb a.senderId = some su) (hsb : su.banned = false)
    (hru : s.userDb a.receiverId = some ru) (hrb : ru.banned = false)
    (hreply : a.replyTo = none)
    (hpriv : (s.usersInPrivateRooms (getPrivateRoomId a.senderId a.receiverId)).isSome) :
    (∀ rid c, s.conns rid = some c →
      getPrivateRoomId a.senderId a.receiverId ∈ c.rooms →
      deliveredPM s (privateMessage s sid a).2 rid) ∧
    (∀ rid, rid ∈ (s.userSockets a.receiverId).getD [] →
      ∀ c, s.conns rid = some c →
      getPrivateRoomId a.senderId a.receiverId ∉ c.rooms →
      OutEvent.privateMessageNotificationTo rid a.senderId
        (if t.length ≤ 100 then t else t.take 97 ++ "...") ∈
        (privateMessage s sid a).2) := by
  unfold privateMessage
  rw [if_neg (show ¬ (¬ truthy a.text ∧ ¬ truthy a.fileUrl) from
    fun h => h.1 (by rw [ht]; simpa [truthy] using htne))]
  rw [if_neg hids, hsu, hru]
  dsimp only
  rw [if_neg (show ¬ (su.banned ∨ ru.banned) by simp [hsb, hrb])]
  rw [hreply]
  dsimp only
  by_cases hrn : a.receiverFirstName = "" ∨ a.receiverLastName = ""
  · rw [if_pos hrn]
    dsimp only
    exact privateMessageCore_delivery s sid a ru.firstName ru.lastName t ht htne hpriv
  · rw [if_neg hrn]
    dsimp only
    exact privateMessageCore_delivery s sid a a.receiverFirstName a.receiverLastName
      t ht htne hpriv

theorem privateMessage_delivery_witness :
    (∀ rid c, c9state.conns rid = some c →
      getPrivateRoomId "A" "B" ∈ c.rooms →
      deliveredPM c9state (privateMessage c9state "s1" c4args).2 rid) ∧
    (∀ rid, rid ∈ (c9state.userSockets "B").getD [] →
      ∀ c, c9state.conns rid = some c →
      getPrivateRoomId "A" "B" ∉ c.rooms →
      OutEvent.privateMessageNotificationTo rid "A"
        (if ("hi" : String).length ≤ 100 then "hi"
         else ("hi" : String).take 97 ++ "...") ∈
        (privateMessage c9state "s1" c4args).2) :=
  privateMessage_delivery c9state "s1" c4args "hi"
    ⟨"N", "M", false, some "p"⟩ ⟨"N", "M", false, some "p"⟩
    rfl (by decide) (by decide) rfl rfl rfl rfl rfl rfl

@[simp] theorem disconnectPass1_usersInPrivateRooms (s : ServerState) (sid : String) :
    (disconnectPass1 s sid).1.usersInPrivateRooms = s.usersInPrivateRooms := by
  unfold disconnectPass1
  dsimp only
  repeat' first | rfl | split

theorem disconnectPass1_users (s : ServerState) (sid : String) :
    (disconnectPass1 s sid).1.users = s.users.del sid := by
  unfold disconnectPass1
  cases husr : s.users sid with
  | none =>
    dsimp only
    funext k
    by_cases hk : k = sid
    · subst hk
      rw [SMap.del_self]
      exact husr
    · rw [SMap.del_ne _ hk]
  | some rec =>
    dsimp only
    repeat' first | rfl | split

@[simp] theorem roomStepPub_priv (fn : String) (s : ServerState) (room : String) :
    (roomStepPub fn s room).usersInPrivateRooms = s.usersInPrivateRooms := by
  unfold roomStepPub
  split <;> rfl

@[simp] theorem roomStepPub_users (fn : String) (s : ServerState) (room : String) :
    (roomStepPub fn s room).users = s.users := by
  unfold roomStepPub
  split <;> rfl

@[simp] theorem roomStepPriv_users (uid : String) (s : ServerState) (room : String) :
    (roomStepPriv uid s room).users = s.users := by
  unfold roomStepPriv
  split <;> rfl

@[simp] theorem disconnectRoomStep_users (fn uid : String)
    (acc : ServerState × List OutEvent) (room : String) :
    (disconnectRoomStep fn uid acc room).1.users = acc.1.users := by
  unfold disconnectRoomStep roomStepPriv roomStepPub
  dsimp only
  repeat' first | rfl | split

theorem foldl_roomStep_users (fn uid : String) (rooms : List String) :
    ∀ acc, ((rooms.foldl (disconnectRoomStep fn uid) acc).1.users = acc.1.users) := by
  induction rooms with
  | nil => intro acc; rfl
  | cons r rs ih =>
    intro acc
    rw [List.foldl_cons, ih, disconnectRoomStep_users]

theorem disconnectPass23_users (s : ServerState) (sid : String) (c : Conn) :
    (disconnectPass23 s sid c).1.users = s.users := by
  unfold disconnectPass23
  cases c.userId with
  | none => rfl
  | some uid =>
    dsimp only
    cases s.userSockets uid with
    | none => rfl
    | some sockets =>
      dsimp only
      cases sdel sid sockets with
      | nil => rw [foldl_roomStep_users]
      | cons a as => rw [foldl_roomStep_users]

theorem roomStepPriv_out_self (uid : String) (s : ServerState) (room : String) :
    ∀ pset, (roomStepPriv uid s room).usersInPrivateRooms room = some pset →
      uid ∉ pset := by
  unfold roomStepPriv
  cases h : s.usersInPrivateRooms room with
  | none =>
    intro pset hp
    rw [h] at hp
    cases hp
  | some pv =>
    intro pset hp
    dsimp only at hp
    rw [SMap.set_self] at hp
    cases hp
    exact not_mem_sdel _ _

theorem roomStepPriv_out_pres (uid : String) (s : ServerState) (room r : String)
    (h : ∀ pset, s.usersInPrivateRooms room = some pset → uid ∉ pset) :
    ∀ pset, (roomStepPriv uid s r).usersInPrivateRooms room = some pset →
      uid ∉ pset := by
  unfold roomStepPriv
  cases hr : s.usersInPrivateRooms r with
  | none => exact h
  | some pv =>
    intro pset hp
    dsimp only at hp
    by_cases hrr : room = r
    · subst hrr
      rw [SMap.set_self] at hp
      cases hp
      exact not_mem_sdel _ _
    · rw [SMap.set_ne _ _ hrr] at hp
      exact h _ hp

theorem disconnectRoomStep_privOut_pres (fn uid : String)
    (acc : ServerState × List OutEvent) (r room : String)
    (h : ∀ pset, acc.1.usersInPrivateRooms room = some pset → uid ∉ pset) :
    ∀ pset, (disconnectRoomStep fn uid acc r).1.usersInPrivateRooms room = some pset →
      uid ∉ pset := by
  have base := roomStepPriv_out_pres uid (roomStepPub fn acc.1 r) room r
    (by rw [roomStepPub_priv]; exact h)
  unfold disconnectRoomStep
  dsimp only
  split <;> exact base

theorem disconnectRoomStep_privOut_estab (fn uid : String)
    (acc : ServerState × List OutEvent) (r : String) :
    ∀ pset, (disconnectRoomStep fn uid acc r).1.usersInPrivateRooms r = some pset →
      uid ∉ pset := by
  have base := roomStepPriv_out_self uid (roomStepPub fn acc.1 r) r
  unfold disconnectRoomStep
  dsimp only
  split <;> exact base

theorem foldl_roomStep_privOut_pres (fn uid : String) (rooms : List String) :
    ∀ acc room, (∀ pset, acc.1.usersInPrivateRooms room = some pset → uid ∉ pset) →
      ∀ pset, ((rooms.foldl (disconnectRoomStep fn uid) acc).1.usersInPrivateRooms
        room = some pset) → uid ∉ pset := by
  induction rooms with
  | nil => intro acc room h; exact h
  | cons r rs ih =>
    intro acc room h
    rw [List.foldl_cons]
    exact ih _ room (disconnectRoomStep_privOut_pres fn uid acc r room h)

theorem foldl_roomStep_privOut (fn uid : String) (rooms : List String) :
    ∀ acc room, room ∈ rooms →
      ∀ pset, ((rooms.foldl (disconnectRoomStep fn uid) acc).1.usersInPrivateRooms
        room = some pset) → uid ∉ pset := by
  induction rooms with
  | nil =>
    intro acc room h
    cases h
  | cons r rs ih =>
    intro acc room h
    rw [List.foldl_cons]
    by_cases hrr : room = r
    · subst hrr
      exact foldl_roomStep_privOut_pres fn uid rs _ room
        (disconnectRoomStep_privOut_estab fn uid acc room)
    · rcases List.mem_cons.mp h with h1 | h2
      · exact absurd h1 hrr
      · exact ih _ room h2

/-- **C2 (amended).** On connection close, pass 1 (session-record cleanup)
always runs: the session record is deleted whether or not the later passes
find anything.  Passes 2 and 3 are however *nested under one guard*: when
the connection has a bound user id whose `userSockets` entry exists, the
connection is removed from that entry and the connection's whole
joined-room set is iterated, removing the user id from every private
room's participant set it appears in; but when the guard fails — a
connection with no bound user id, or whose user id has no `userSockets`
entry (e.g. one that joined a private room without ever registering) —
pass 3 does not run at all and `usersInPrivateRooms` is left untouched,
even when the joined-room set is non-empty. -/
theorem disconnect_passes (s : ServerState) (sid : String) (c : Conn)
    (hc : s.conns sid = some c) :
    ((disconnectH s sid).1.users = s.users.del sid) ∧
    (∀ uid sockets, c.userId = some uid → s.userSockets uid = some sockets →
      ((∀ room, room ∈ c.rooms → ∀ pset,
        (disconnectH s sid).1.usersInPrivateRooms room = some pset → uid ∉ pset) ∧
       sid ∉ ((disconnectH s sid).1.userSockets uid).getD [])) ∧
    ((∀ uid, c.userId = some uid → s.userSockets uid = none) →
      (disconnectH s sid).1.usersInPrivateRooms = s.usersInPrivateRooms) := by
  unfold disconnectH
  rw [hc]
  dsimp only
  refine ⟨?_, ?_, ?_⟩
  · show (disconnectPass23 (disconnectPass1 s sid).1 sid c).1.users = s.users.del sid
    rw [disconnectPass23_users, disconnectPass1_users]
  · intro uid sockets huid hus
    have hus1 : (disconnectPass1 s sid).1.userSockets uid = some sockets := by
      rw [disconnectPass1_userSockets]
      exact hus
    constructor
    · intro room hroom pset hp
      have hp' : (disconnectPass23 (disconnectPass1 s sid).1 sid c).1.usersInPrivateRooms
          room = some pset := hp
      revert hp'
      unfold disconnectPass23
      rw [huid]
      dsimp only
      rw [hus1]
      dsimp only
      cases hsp : sdel sid sockets with
      | nil =>
        dsimp only
        exact fun hp' => foldl_roomStep_privOut _ uid c.rooms _ room hroom pset hp'
      | cons a as =>
        dsimp only
        exact fun hp' => foldl_roomStep_privOut _ uid c.rooms _ room hroom pset hp'
    · show sid ∉ ((disconnectPass23 (disconnectPass1 s sid).1 sid c).1.userSockets
        uid).getD []
      unfold disconnectPass23
      rw [huid]
      dsimp only
      rw [hus1]
      dsimp only
      cases hsp : sdel sid sockets with
      | nil =>
        dsimp only
        rw [foldl_roomStep_userSockets]
        dsimp only
        rw [SMap.del_self]
        simp
      | cons a as =>
        dsimp only
        rw [foldl_roomStep_userSockets]
        dsimp only
        rw [SMap.set_self]
        simp only [Option.getD_some]
        rw [← hsp]
        exact not_mem_sdel _ _
  · intro hguardfail
    show (disconnectPass23 (disconnectPass1 s sid).1 sid c).1.usersInPrivateRooms =
      s.usersInPrivateRooms
    unfold disconnectPass23
    cases huid : c.userId with
    | none =>
      dsimp only
      rw [disconnectPass1_usersInPrivateRooms]
    | some uid =>
      dsimp only
      rw [disconnectPass1_userSockets, hguardfail uid huid]
      dsimp only
      rw [disconnectPass1_usersInPrivateRooms]

/-- **C2 (counterexample).** In the reachable state `c2s` the connection
has no session record, a non-empty joined-room set, and its user id `X` is
in the private room's participant set; yet after `disconnect` the
participant trace is still there — pass 3 did not run, contradicting the
claim that pass 3 runs even for a connection with no session record. -/
theorem disconnect_passes_counterexample :
    c2s.users "s1" = none ∧
    (c2s.conns "s1").map Conn.rooms = some [getPrivateRoomId "X" "Y"] ∧
    (c2s.usersInPrivateRooms (getPrivateRoomId "X" "Y")).getD [] = ["X"] ∧
    "X" ∈ (((disconnectH c2s "s1").1.usersInPrivateRooms
      (getPrivateRoomId "X" "Y")).getD []) := by
  decide

theorem disconnect_passes_witness :
    ((disconnectH c2wstate "s1").1.users = c2wstate.users.del "s1") ∧
    (∀ uid sockets, c2wconn.userId = some uid →
      c2wstate.userSockets uid = some sockets →
      ((∀ room, room ∈ c2wconn.rooms → ∀ pset,
        (disconnectH c2wstate "s1").1.usersInPrivateRooms room = some pset →
        uid ∉ pset) ∧
       "s1" ∉ (((disconnectH c2wstate "s1").1.userSockets uid).getD []))) ∧
    ((∀ uid, c2wconn.userId = some uid → c2wstate.userSockets uid = none) →
      (disconnectH c2wstate "s1").1.usersInPrivateRooms =
        c2wstate.usersInPrivateRooms) :=
  disconnect_passes c2wstate "s1" c2wconn rfl

end Whispr
